import Mathlib

/-!
# Field arithmetic modulo the secp256k1 prime, 5x52 representation

A shallow embedding of `src/field_5x52_impl.h`.  A field element is five
`uint64_t` limbs in radix `2^52`.  Limbs are modelled as natural numbers and
every 64-bit operation that can wrap is reduced modulo `2^64` explicitly.
The `assert` statements of `secp256k1_fe_normalize` are modelled: the function
returns `none` when one of them fails.  The `VERIFY`-only bookkeeping fields
(`magnitude`, `normalized`) and the assertions on them are not modelled.
-/

namespace Secp256k1

/-! ## Machine arithmetic -/

/-- Wrap a natural number to an unsigned 64-bit value. -/
def u64 (x : Nat) : Nat := x % 2 ^ 64

/-- Conversion of a C `int` to `uint64_t` (wrap modulo 2^64). -/
def u64_of_int (a : Int) : Nat := (a % 2 ^ 64).toNat

/-- Unsigned 64-bit subtraction `a - b` with wraparound, for `a, b < 2^64`. -/
def u64_sub (a b : Nat) : Nat := (a + 2 ^ 64 - b) % 2 ^ 64

/-- A C comparison yields the integer `1` or `0`. -/
def b2n (b : Bool) : Nat := if b then 1 else 0

/-! ## Data model -/

/-- Modelled from the spec: the struct `secp256k1_fe_t` is declared in a header
that is not among the sources; section 3.1 gives it as an ordered 5-tuple of
unsigned 64-bit limbs `n[0..4]`. -/
structure secp256k1_fe_t where
  n0 : Nat
  n1 : Nat
  n2 : Nat
  n3 : Nat
  n4 : Nat
deriving DecidableEq

/-- Every limb fits in a `uint64_t`. -/
def limbs64 (a : secp256k1_fe_t) : Prop :=
  a.n0 < 2 ^ 64 ∧ a.n1 < 2 ^ 64 ∧ a.n2 < 2 ^ 64 ∧ a.n3 < 2 ^ 64 ∧ a.n4 < 2 ^ 64

instance (a : secp256k1_fe_t) : Decidable (limbs64 a) := by
  unfold limbs64; infer_instance

/-- The field characteristic `p = 2^256 - 2^32 - 977`. -/
def p : Nat := 2 ^ 256 - 2 ^ 32 - 977

/-- The integer a limb tuple stands for, in radix `2^52`. -/
def value (a : secp256k1_fe_t) : Nat :=
  a.n0 + a.n1 * 2 ^ 52 + a.n2 * 2 ^ 104 + a.n3 * 2 ^ 156 + a.n4 * 2 ^ 208

/-- The magnitude bound of the header comment: with magnitude `M` each limb is
at most `M*(2^53-1)`, the most significant one at most `M*(2^49-1)`. -/
def mag_le (M : Nat) (a : secp256k1_fe_t) : Prop :=
  a.n0 ≤ M * (2 ^ 53 - 1) ∧ a.n1 ≤ M * (2 ^ 53 - 1) ∧ a.n2 ≤ M * (2 ^ 53 - 1) ∧
  a.n3 ≤ M * (2 ^ 53 - 1) ∧ a.n4 ≤ M * (2 ^ 49 - 1)

instance (M : Nat) (a : secp256k1_fe_t) : Decidable (mag_le M a) := by
  unfold mag_le; infer_instance

/-- Limbs in canonical range: `n0..n3 < 2^52` and `n4 < 2^48`. -/
def limbs_in_range (a : secp256k1_fe_t) : Prop :=
  a.n0 < 2 ^ 52 ∧ a.n1 < 2 ^ 52 ∧ a.n2 < 2 ^ 52 ∧ a.n3 < 2 ^ 52 ∧ a.n4 < 2 ^ 48

instance (a : secp256k1_fe_t) : Decidable (limbs_in_range a) := by
  unfold limbs_in_range; infer_instance

/-- Normalized form: limbs in canonical range and value below `p`. -/
def normalized (a : secp256k1_fe_t) : Prop :=
  limbs_in_range a ∧ value a < p

instance (a : secp256k1_fe_t) : Decidable (normalized a) := by
  unfold normalized; infer_instance

/-! ## Operations -/

/-- The function `secp256k1_fe_normalize`, with its two assertions. -/
def secp256k1_fe_normalize (r : secp256k1_fe_t) : Option secp256k1_fe_t :=
  let t0 := r.n0
  let t1 := r.n1
  let t2 := r.n2
  let t3 := r.n3
  let t4 := r.n4
  let x := t4 >>> 48
  let t4 := t4 &&& 0x0FFFFFFFFFFFF
  let t0 := u64 (t0 + x * 0x1000003D1)
  let t1 := u64 (t1 + (t0 >>> 52))
  let t0 := t0 &&& 0xFFFFFFFFFFFFF
  let t2 := u64 (t2 + (t1 >>> 52))
  let t1 := t1 &&& 0xFFFFFFFFFFFFF
  let m := t1
  let t3 := u64 (t3 + (t2 >>> 52))
  let t2 := t2 &&& 0xFFFFFFFFFFFFF
  let m := m &&& t2
  let t4 := u64 (t4 + (t3 >>> 52))
  let t3 := t3 &&& 0xFFFFFFFFFFFFF
  let m := m &&& t3
  if t4 >>> 49 ≠ 0 then none else
  let x := (t4 >>> 48) ||| (b2n (t4 == 0x0FFFFFFFFFFFF) &&& b2n (m == 0xFFFFFFFFFFFFF)
    &&& b2n (decide (t0 ≥ 0xFFFFEFFFFFC2F)))
  let t0 := u64 (t0 + x * 0x1000003D1)
  let t1 := u64 (t1 + (t0 >>> 52))
  let t0 := t0 &&& 0xFFFFFFFFFFFFF
  let t2 := u64 (t2 + (t1 >>> 52))
  let t1 := t1 &&& 0xFFFFFFFFFFFFF
  let t3 := u64 (t3 + (t2 >>> 52))
  let t2 := t2 &&& 0xFFFFFFFFFFFFF
  let t4 := u64 (t4 + (t3 >>> 52))
  let t3 := t3 &&& 0xFFFFFFFFFFFFF
  if t4 >>> 48 ≠ x then none else
  let t4 := t4 &&& 0x0FFFFFFFFFFFF
  some ⟨t0, t1, t2, t3, t4⟩

/-- The function `secp256k1_fe_set_int`: the `int` is converted to `uint64_t`. -/
def secp256k1_fe_set_int (a : Int) : secp256k1_fe_t :=
  ⟨u64_of_int a, 0, 0, 0, 0⟩

/-- The function `secp256k1_fe_is_zero`. -/
def secp256k1_fe_is_zero (a : secp256k1_fe_t) : Bool :=
  a.n0 == 0 && a.n1 == 0 && a.n2 == 0 && a.n3 == 0 && a.n4 == 0

/-- The function `secp256k1_fe_is_odd`. -/
def secp256k1_fe_is_odd (a : secp256k1_fe_t) : Nat :=
  a.n0 &&& 1

/-- The function `secp256k1_fe_equal`. -/
def secp256k1_fe_equal (a b : secp256k1_fe_t) : Bool :=
  a.n0 == b.n0 && a.n1 == b.n1 && a.n2 == b.n2 && a.n3 == b.n3 && a.n4 == b.n4

/-- The update `r->n[limb] |= v` for a limb index computed at run time. -/
def or_limb (r : secp256k1_fe_t) (limb : Nat) (v : Nat) : secp256k1_fe_t :=
  match limb with
  | 0 => { r with n0 := r.n0 ||| v }
  | 1 => { r with n1 := r.n1 ||| v }
  | 2 => { r with n2 := r.n2 ||| v }
  | 3 => { r with n3 := r.n3 ||| v }
  | 4 => { r with n4 := r.n4 ||| v }
  | _ => r

/-- The function `secp256k1_fe_set_b32`.  The buffer is a list of bytes, read
at index `31 - i`.  The shifted nibble is below `2^56`, so the 64-bit left
shift loses no bit. -/
def secp256k1_fe_set_b32 (a : List Nat) : secp256k1_fe_t :=
  (List.range 32).foldl (fun r i =>
    (List.range 2).foldl (fun r j =>
      let limb := (8 * i + 4 * j) / 52
      let shift := (8 * i + 4 * j) % 52
      or_limb r limb ((((a.getD (31 - i) 0) >>> (4 * j)) &&& 0xF) <<< shift)) r)
    ⟨0, 0, 0, 0, 0⟩

/-- The function `secp256k1_fe_get_b32`: the 32 output bytes `r[0..31]`. -/
def secp256k1_fe_get_b32 (a : secp256k1_fe_t) : List Nat :=
  [ (a.n4 >>> 40) &&& 0xFF,
    (a.n4 >>> 32) &&& 0xFF,
    (a.n4 >>> 24) &&& 0xFF,
    (a.n4 >>> 16) &&& 0xFF,
    (a.n4 >>> 8) &&& 0xFF,
    a.n4 &&& 0xFF,
    (a.n3 >>> 44) &&& 0xFF,
    (a.n3 >>> 36) &&& 0xFF,
    (a.n3 >>> 28) &&& 0xFF,
    (a.n3 >>> 20) &&& 0xFF,
    (a.n3 >>> 12) &&& 0xFF,
    (a.n3 >>> 4) &&& 0xFF,
    ((a.n2 >>> 48) &&& 0xF) ||| ((a.n3 &&& 0xF) <<< 4),
    (a.n2 >>> 40) &&& 0xFF,
    (a.n2 >>> 32) &&& 0xFF,
    (a.n2 >>> 24) &&& 0xFF,
    (a.n2 >>> 16) &&& 0xFF,
    (a.n2 >>> 8) &&& 0xFF,
    a.n2 &&& 0xFF,
    (a.n1 >>> 44) &&& 0xFF,
    (a.n1 >>> 36) &&& 0xFF,
    (a.n1 >>> 28) &&& 0xFF,
    (a.n1 >>> 20) &&& 0xFF,
    (a.n1 >>> 12) &&& 0xFF,
    (a.n1 >>> 4) &&& 0xFF,
    ((a.n0 >>> 48) &&& 0xF) ||| ((a.n1 &&& 0xF) <<< 4),
    (a.n0 >>> 40) &&& 0xFF,
    (a.n0 >>> 32) &&& 0xFF,
    (a.n0 >>> 24) &&& 0xFF,
    (a.n0 >>> 16) &&& 0xFF,
    (a.n0 >>> 8) &&& 0xFF,
    a.n0 &&& 0xFF ]

/-- The function `secp256k1_fe_negate`: `m + 1` is converted to `uint64_t`,
the product and the subtraction wrap modulo `2^64`. -/
def secp256k1_fe_negate (a : secp256k1_fe_t) (m : Int) : secp256k1_fe_t :=
  ⟨u64_sub (u64 (0xFFFFEFFFFFC2F * u64_of_int (m + 1))) a.n0,
   u64_sub (u64 (0xFFFFFFFFFFFFF * u64_of_int (m + 1))) a.n1,
   u64_sub (u64 (0xFFFFFFFFFFFFF * u64_of_int (m + 1))) a.n2,
   u64_sub (u64 (0xFFFFFFFFFFFFF * u64_of_int (m + 1))) a.n3,
   u64_sub (u64 (0x0FFFFFFFFFFFF * u64_of_int (m + 1))) a.n4⟩

/-- The function `secp256k1_fe_mul_int`: the `int` factor is converted to
`uint64_t` and each product wraps modulo `2^64`. -/
def secp256k1_fe_mul_int (r : secp256k1_fe_t) (a : Int) : secp256k1_fe_t :=
  ⟨u64 (r.n0 * u64_of_int a), u64 (r.n1 * u64_of_int a), u64 (r.n2 * u64_of_int a),
   u64 (r.n3 * u64_of_int a), u64 (r.n4 * u64_of_int a)⟩

/-- The function `secp256k1_fe_add`: each sum wraps modulo `2^64`. -/
def secp256k1_fe_add (r a : secp256k1_fe_t) : secp256k1_fe_t :=
  ⟨u64 (r.n0 + a.n0), u64 (r.n1 + a.n1), u64 (r.n2 + a.n2), u64 (r.n3 + a.n3),
   u64 (r.n4 + a.n4)⟩

/-! ## Byte strings as integers -/

/-- A 32-byte buffer: 32 entries, each below 256. -/
def is_b32 (b : List Nat) : Prop := b.length = 32 ∧ ∀ x ∈ b, x < 256

instance (b : List Nat) : Decidable (is_b32 b) := by
  unfold is_b32; infer_instance

/-- The big-endian integer of a 32-byte buffer: the sum of `b[i] * 256^(31-i)`. -/
def be_value (b : List Nat) : Nat :=
  ((List.range 32).map (fun i => b.getD i 0 * 256 ^ (31 - i))).sum

/-- The 32-byte big-endian encoding of an integer below `2^256`. -/
def be_encode (x : Nat) : List Nat :=
  (List.range 32).map (fun i => (x / 256 ^ (31 - i)) % 256)

/-! ## Auxiliary definitions for the analysis of the normalization -/

/-- The carry chain that both passes of `secp256k1_fe_normalize` run. -/
def carry (t0 t1 t2 t3 t4 : Nat) : secp256k1_fe_t :=
  let t1 := u64 (t1 + (t0 >>> 52))
  let t0 := t0 &&& 0xFFFFFFFFFFFFF
  let t2 := u64 (t2 + (t1 >>> 52))
  let t1 := t1 &&& 0xFFFFFFFFFFFFF
  let t3 := u64 (t3 + (t2 >>> 52))
  let t2 := t2 &&& 0xFFFFFFFFFFFFF
  let t4 := u64 (t4 + (t3 >>> 52))
  let t3 := t3 &&& 0xFFFFFFFFFFFFF
  ⟨t0, t1, t2, t3, t4⟩

/-- The limbs `t0..t4` after the first pass of `secp256k1_fe_normalize`. -/
def pass1 (r : secp256k1_fe_t) : secp256k1_fe_t :=
  carry (u64 (r.n0 + (r.n4 >>> 48) * 0x1000003D1)) r.n1 r.n2 r.n3 (r.n4 &&& 0x0FFFFFFFFFFFF)

/-- The comparison flag `x` that `secp256k1_fe_normalize` computes after the
first pass. -/
def ge_flag (s : secp256k1_fe_t) : Nat :=
  (s.n4 >>> 48) ||| (b2n (s.n4 == 0x0FFFFFFFFFFFF) &&&
    b2n (s.n1 &&& s.n2 &&& s.n3 == 0xFFFFFFFFFFFFF) &&& b2n (decide (s.n0 ≥ 0xFFFFEFFFFFC2F)))

/-- The limbs `t0..t4` after the second pass, before the final mask. -/
def pass2 (s : secp256k1_fe_t) (x : Nat) : secp256k1_fe_t :=
  carry (u64 (s.n0 + x * 0x1000003D1)) s.n1 s.n2 s.n3 s.n4

/-- Start from `a` and apply `secp256k1_fe_add` with `a` another `n` times. -/
def add_times (a : secp256k1_fe_t) : Nat → secp256k1_fe_t
  | 0 => a
  | n + 1 => secp256k1_fe_add (add_times a n) a

/-! ## Concrete inputs used by the examples -/

/-- The 32-byte buffer `00 .. 00 01 02 03`. -/
def buf_123 : List Nat :=
  [0, 0, 0, 0, 0, 0, 0, 0, 0, 0, 0, 0, 0, 0, 0, 0, 0, 0, 0, 0, 0, 0, 0, 0, 0, 0, 0, 0, 0, 1, 2, 3]

/-- The big-endian encoding `FF .. FE FFFFFC2E` of `p - 1`. -/
def buf_p_minus_1 : List Nat :=
  [0xFF, 0xFF, 0xFF, 0xFF, 0xFF, 0xFF, 0xFF, 0xFF, 0xFF, 0xFF, 0xFF, 0xFF, 0xFF, 0xFF, 0xFF, 0xFF,
   0xFF, 0xFF, 0xFF, 0xFF, 0xFF, 0xFF, 0xFF, 0xFF, 0xFF, 0xFF, 0xFF, 0xFE, 0xFF, 0xFF, 0xFC, 0x2E]

/-- The 32-byte buffer of all `FF`, the integer `2^256 - 1`. -/
def buf_all_ff : List Nat :=
  [0xFF, 0xFF, 0xFF, 0xFF, 0xFF, 0xFF, 0xFF, 0xFF, 0xFF, 0xFF, 0xFF, 0xFF, 0xFF, 0xFF, 0xFF, 0xFF,
   0xFF, 0xFF, 0xFF, 0xFF, 0xFF, 0xFF, 0xFF, 0xFF, 0xFF, 0xFF, 0xFF, 0xFF, 0xFF, 0xFF, 0xFF, 0xFF]

/-- The normalized element of value `p - 1`. -/
def fe_p_minus_1 : secp256k1_fe_t :=
  ⟨0xFFFFEFFFFFC2E, 0xFFFFFFFFFFFFF, 0xFFFFFFFFFFFFF, 0xFFFFFFFFFFFFF, 0xFFFFFFFFFFFF⟩

/-- A magnitude-1 element whose lowest limb sits at the bound `2^53 - 1`. -/
def fe_limb0_max : secp256k1_fe_t := ⟨2 ^ 53 - 1, 0, 0, 0, 0⟩

/-- A magnitude-32 element with every limb at its bound. -/
def fe_mag32_max : secp256k1_fe_t :=
  ⟨32 * (2 ^ 53 - 1), 32 * (2 ^ 53 - 1), 32 * (2 ^ 53 - 1), 32 * (2 ^ 53 - 1), 32 * (2 ^ 49 - 1)⟩

/-- The element whose five limbs are all `2^64 - 1`. -/
def fe_all_ones : secp256k1_fe_t :=
  ⟨2 ^ 64 - 1, 2 ^ 64 - 1, 2 ^ 64 - 1, 2 ^ 64 - 1, 2 ^ 64 - 1⟩

/-- The limb-wise bound `a_i ≤ k * p_i` against the limbs of `p`. -/
def neg_bound (k : Nat) (a : secp256k1_fe_t) : Prop :=
  a.n0 ≤ k * 0xFFFFEFFFFFC2F ∧ a.n1 ≤ k * 0xFFFFFFFFFFFFF ∧ a.n2 ≤ k * 0xFFFFFFFFFFFFF ∧
  a.n3 ≤ k * 0xFFFFFFFFFFFFF ∧ a.n4 ≤ k * 0x0FFFFFFFFFFFF

instance (k : Nat) (a : secp256k1_fe_t) : Decidable (neg_bound k a) := by
  unfold neg_bound; infer_instance

/-- The limbs of `p` itself: in limb range, value exactly `p`. -/
def fe_p : secp256k1_fe_t :=
  ⟨0xFFFFEFFFFFC2F, 0xFFFFFFFFFFFFF, 0xFFFFFFFFFFFFF, 0xFFFFFFFFFFFFF, 0xFFFFFFFFFFFF⟩

/-- A magnitude-1 element with every limb at its bound. -/
def fe_mag1_max : secp256k1_fe_t :=
  ⟨2 ^ 53 - 1, 2 ^ 53 - 1, 2 ^ 53 - 1, 2 ^ 53 - 1, 2 ^ 49 - 1⟩

/-- A magnitude-31 element with every limb at its bound. -/
def fe_mag31_max : secp256k1_fe_t :=
  ⟨31 * (2 ^ 53 - 1), 31 * (2 ^ 53 - 1), 31 * (2 ^ 53 - 1), 31 * (2 ^ 53 - 1), 31 * (2 ^ 49 - 1)⟩

/-- The element whose limbs are `32 * p_i`. -/
def fe_32p : secp256k1_fe_t :=
  ⟨32 * 0xFFFFEFFFFFC2F, 32 * 0xFFFFFFFFFFFFF, 32 * 0xFFFFFFFFFFFFF, 32 * 0xFFFFFFFFFFFFF,
   32 * 0x0FFFFFFFFFFFF⟩

/-- An element with 64-bit limbs far outside every magnitude bound. -/
def fe_wild : secp256k1_fe_t := ⟨2 ^ 64 - 1, 0, 2 ^ 64 - 1, 0, 2 ^ 64 - 1⟩

/-! ## Bit-level facts -/

theorem shr_div (x k : Nat) : x >>> k = x / 2 ^ k := Nat.shiftRight_eq_div_pow x k

theorem and_mask52 (x : Nat) : x &&& 0xFFFFFFFFFFFFF = x % 2 ^ 52 := by
  have h := Nat.and_pow_two_sub_one_eq_mod x 52
  norm_num at h ⊢
  exact h

theorem and_mask48 (x : Nat) : x &&& 0x0FFFFFFFFFFFF = x % 2 ^ 48 := by
  have h := Nat.and_pow_two_sub_one_eq_mod x 48
  norm_num at h ⊢
  exact h

theorem and3_ones (a b c : Nat) (ha : a < 2 ^ 52) (hb : b < 2 ^ 52) (hc : c < 2 ^ 52) :
    a &&& b &&& c = 0xFFFFFFFFFFFFF ↔
      a = 0xFFFFFFFFFFFFF ∧ b = 0xFFFFFFFFFFFFF ∧ c = 0xFFFFFFFFFFFFF := by
  constructor
  · intro h
    have h1 : a &&& b &&& c ≤ a &&& b := Nat.and_le_left
    have h2 : a &&& b &&& c ≤ c := Nat.and_le_right
    have h3 : a &&& b ≤ a := Nat.and_le_left
    have h4 : a &&& b ≤ b := Nat.and_le_right
    omega
  · rintro ⟨rfl, rfl, rfl⟩
    decide

theorem flag_cases (q : Nat) (hq : q ≤ 1) (c1 c2 c3 : Bool) :
    q ||| (b2n c1 &&& b2n c2 &&& b2n c3)
      = if q = 1 ∨ (c1 = true ∧ c2 = true ∧ c3 = true) then 1 else 0 := by
  interval_cases q <;> cases c1 <;> cases c2 <;> cases c3 <;> decide

theorem normalize_unfold (r : secp256k1_fe_t) :
    secp256k1_fe_normalize r =
      if (pass1 r).n4 >>> 49 ≠ 0 then none else
      if (pass2 (pass1 r) (ge_flag (pass1 r))).n4 >>> 48 ≠ ge_flag (pass1 r) then none else
      some { pass2 (pass1 r) (ge_flag (pass1 r)) with
             n4 := (pass2 (pass1 r) (ge_flag (pass1 r))).n4 &&& 0x0FFFFFFFFFFFF } := rfl

theorem carry_eq (t0 t1 t2 t3 t4 : Nat) :
    carry t0 t1 t2 t3 t4 =
      ⟨t0 % 2 ^ 52,
       ((t1 + t0 / 2 ^ 52) % 2 ^ 64) % 2 ^ 52,
       ((t2 + ((t1 + t0 / 2 ^ 52) % 2 ^ 64) / 2 ^ 52) % 2 ^ 64) % 2 ^ 52,
       ((t3 + ((t2 + ((t1 + t0 / 2 ^ 52) % 2 ^ 64) / 2 ^ 52) % 2 ^ 64) / 2 ^ 52) % 2 ^ 64) % 2 ^ 52,
       (t4 + ((t3 + ((t2 + ((t1 + t0 / 2 ^ 52) % 2 ^ 64) / 2 ^ 52) % 2 ^ 64) / 2 ^ 52) % 2 ^ 64) / 2 ^ 52) % 2 ^ 64⟩ := by
  simp only [carry, u64, shr_div, and_mask52]


theorem carry_n4_lt (t0 t1 t2 t3 t4 : Nat) (h4 : t4 < 2 ^ 48) :
    (carry t0 t1 t2 t3 t4).n4 < 2 ^ 48 + 2 ^ 12 := by
  have aux : ∀ a y : Nat, a < 2 ^ 48 → (a + y % 2 ^ 64 / 2 ^ 52) % 2 ^ 64 < 2 ^ 48 + 2 ^ 12 := by
    intro a y h; omega
  rw [carry_eq]
  exact aux _ _ h4

theorem carry_lt (t0 t1 t2 t3 t4 : Nat) :
    (carry t0 t1 t2 t3 t4).n0 < 2 ^ 52 ∧ (carry t0 t1 t2 t3 t4).n1 < 2 ^ 52 ∧
    (carry t0 t1 t2 t3 t4).n2 < 2 ^ 52 ∧ (carry t0 t1 t2 t3 t4).n3 < 2 ^ 52 := by
  rw [carry_eq]
  exact ⟨Nat.mod_lt _ (by norm_num), Nat.mod_lt _ (by norm_num), Nat.mod_lt _ (by norm_num),
    Nat.mod_lt _ (by norm_num)⟩

/-- Without wraparound the carry chain keeps the represented integer. -/
theorem carry_value (t0 t1 t2 t3 t4 : Nat) (h0 : t0 < 2 ^ 64) (h1 : t1 < 2 ^ 63)
    (h2 : t2 < 2 ^ 63) (h3 : t3 < 2 ^ 63) (h4 : t4 < 2 ^ 63) :
    value (carry t0 t1 t2 t3 t4)
      = t0 + t1 * 2 ^ 52 + t2 * 2 ^ 104 + t3 * 2 ^ 156 + t4 * 2 ^ 208 := by
  rw [carry_eq]
  simp only [value]
  have e1 : (t1 + t0 / 2 ^ 52) % 2 ^ 64 = t1 + t0 / 2 ^ 52 := Nat.mod_eq_of_lt (by omega)
  rw [e1]
  have e2 : (t2 + (t1 + t0 / 2 ^ 52) / 2 ^ 52) % 2 ^ 64 = t2 + (t1 + t0 / 2 ^ 52) / 2 ^ 52 :=
    Nat.mod_eq_of_lt (by omega)
  rw [e2]
  have e3 : (t3 + (t2 + (t1 + t0 / 2 ^ 52) / 2 ^ 52) / 2 ^ 52) % 2 ^ 64
      = t3 + (t2 + (t1 + t0 / 2 ^ 52) / 2 ^ 52) / 2 ^ 52 := Nat.mod_eq_of_lt (by omega)
  rw [e3]
  have e4 : (t4 + (t3 + (t2 + (t1 + t0 / 2 ^ 52) / 2 ^ 52) / 2 ^ 52) / 2 ^ 52) % 2 ^ 64
      = t4 + (t3 + (t2 + (t1 + t0 / 2 ^ 52) / 2 ^ 52) / 2 ^ 52) / 2 ^ 52 := Nat.mod_eq_of_lt (by omega)
  rw [e4]
  omega


theorem pass1_lt (r : secp256k1_fe_t) :
    (pass1 r).n0 < 2 ^ 52 ∧ (pass1 r).n1 < 2 ^ 52 ∧ (pass1 r).n2 < 2 ^ 52 ∧
    (pass1 r).n3 < 2 ^ 52 ∧ (pass1 r).n4 < 2 ^ 48 + 2 ^ 12 := by
  obtain ⟨a, b, c, d⟩ := carry_lt (u64 (r.n0 + (r.n4 >>> 48) * 0x1000003D1)) r.n1 r.n2 r.n3
    (r.n4 &&& 0x0FFFFFFFFFFFF)
  refine ⟨a, b, c, d, carry_n4_lt _ _ _ _ _ ?_⟩
  rw [and_mask48]
  exact Nat.mod_lt _ (by norm_num)

/-- The comparison flag is `1` exactly when the value is at least `p`. -/
theorem ge_flag_spec (s : secp256k1_fe_t) (h0 : s.n0 < 2 ^ 52) (h1 : s.n1 < 2 ^ 52)
    (h2 : s.n2 < 2 ^ 52) (h3 : s.n3 < 2 ^ 52) (h4 : s.n4 < 2 ^ 49) :
    ge_flag s = if p ≤ value s then 1 else 0 := by
  have hq : s.n4 >>> 48 ≤ 1 := by rw [shr_div]; omega
  unfold ge_flag
  rw [flag_cases _ hq]
  have hm := and3_ones s.n1 s.n2 s.n3 h1 h2 h3
  simp only [beq_iff_eq, decide_eq_true_eq, hm, shr_div, value, p]
  by_cases hc : s.n4 / 2 ^ 48 = 1 ∨
      s.n4 = 0xFFFFFFFFFFFF ∧ (s.n1 = 0xFFFFFFFFFFFFF ∧ s.n2 = 0xFFFFFFFFFFFFF ∧
        s.n3 = 0xFFFFFFFFFFFFF) ∧ s.n0 ≥ 0xFFFFEFFFFFC2F
  · rw [if_pos hc, if_pos (by omega)]
  · rw [if_neg hc, if_neg (by omega)]


/-- Whatever the input, the normalization passes both assertions and returns
the canonical representative of the value reached after the first pass. -/
theorem normalize_pass1 (r : secp256k1_fe_t) :
    ∃ out, secp256k1_fe_normalize r = some out ∧ normalized out ∧
      value out = value (pass1 r) % p := by
  obtain ⟨h0, h1, h2, h3, h4⟩ := pass1_lt r
  have hx := ge_flag_spec (pass1 r) h0 h1 h2 h3 (by omega)
  rw [normalize_unfold]
  generalize pass1 r = s at *
  have ha : ¬ (s.n4 >>> 49 ≠ 0) := by rw [shr_div]; omega
  rw [if_neg ha]
  generalize ge_flag s = x at *
  have hx1 : x ≤ 1 := by rw [hx]; split <;> omega
  have hu : u64 (s.n0 + x * 0x1000003D1) = s.n0 + x * 0x1000003D1 := by
    unfold u64; exact Nat.mod_eq_of_lt (by omega)
  have hv := carry_value (s.n0 + x * 0x1000003D1) s.n1 s.n2 s.n3 s.n4
    (by omega) (by omega) (by omega) (by omega) (by omega)
  obtain ⟨u0, u1, u2, u3⟩ := carry_lt (s.n0 + x * 0x1000003D1) s.n1 s.n2 s.n3 s.n4
  unfold pass2
  rw [hu]
  generalize carry (s.n0 + x * 0x1000003D1) s.n1 s.n2 s.n3 s.n4 = u at *
  simp only [value, p] at hv hx
  have hb : ¬ (u.n4 >>> 48 ≠ x) := by
    rw [shr_div]
    split at hx <;> omega
  rw [if_neg hb]
  refine ⟨_, rfl, ?_, ?_⟩
  · simp only [normalized, limbs_in_range, value, p, and_mask48]
    split at hx <;> omega
  · simp only [value, p, and_mask48]
    split at hx <;> omega


theorem pass1_value (r : secp256k1_fe_t) (h : mag_le 32 r) :
    value (pass1 r) + (r.n4 / 2 ^ 48) * p = value r := by
  obtain ⟨h0, h1, h2, h3, h4⟩ := h
  have hu : u64 (r.n0 + (r.n4 >>> 48) * 0x1000003D1) = r.n0 + (r.n4 / 2 ^ 48) * 0x1000003D1 := by
    unfold u64; rw [shr_div]; exact Nat.mod_eq_of_lt (by omega)
  unfold pass1
  rw [hu, and_mask48, carry_value _ _ _ _ _ (by omega) (by omega) (by omega) (by omega) (by omega)]
  simp only [value, p]
  omega

theorem normalize_mag (r : secp256k1_fe_t) (h : mag_le 32 r) :
    ∃ out, secp256k1_fe_normalize r = some out ∧ normalized out ∧
      value out = value r % p := by
  obtain ⟨out, h1, h2, h3⟩ := normalize_pass1 r
  refine ⟨out, h1, h2, ?_⟩
  rw [h3, ← pass1_value r h, Nat.add_mul_mod_self_right]

theorem value_inj (a b : secp256k1_fe_t) (ha : limbs_in_range a) (hb : limbs_in_range b)
    (h : value a = value b) : a = b := by
  obtain ⟨a0, a1, a2, a3, a4⟩ := a
  obtain ⟨b0, b1, b2, b3, b4⟩ := b
  simp only [limbs_in_range, value] at ha hb h
  simp only [secp256k1_fe_t.mk.injEq]
  omega

theorem mag_of_in_range (a : secp256k1_fe_t) (h : limbs_in_range a) : mag_le 1 a := by
  simp only [limbs_in_range, mag_le] at *
  omega

theorem mag_mono (a : secp256k1_fe_t) (M N : Nat) (hMN : M ≤ N) (h : mag_le M a) :
    mag_le N a := by
  obtain ⟨h0, h1, h2, h3, h4⟩ := h
  have k1 : M * (2 ^ 53 - 1) ≤ N * (2 ^ 53 - 1) := Nat.mul_le_mul_right _ hMN
  have k2 : M * (2 ^ 49 - 1) ≤ N * (2 ^ 49 - 1) := Nat.mul_le_mul_right _ hMN
  exact ⟨le_trans h0 k1, le_trans h1 k1, le_trans h2 k1, le_trans h3 k1, le_trans h4 k2⟩

/-- A normalized element is a fixed point of the normalization. -/
theorem normalize_fix (r : secp256k1_fe_t) (h : normalized r) :
    secp256k1_fe_normalize r = some r := by
  obtain ⟨out, h1, h2, h3⟩ :=
    normalize_mag r (mag_mono r 1 32 (by norm_num) (mag_of_in_range r h.1))
  rw [Nat.mod_eq_of_lt h.2] at h3
  rw [h1, value_inj out r h2.1 h.1 h3]

/-! ## Byte-level facts -/


theorem and_mask8 (x : Nat) : x &&& 0xFF = x % 256 := by
  have h := Nat.and_pow_two_sub_one_eq_mod x 8
  norm_num at h ⊢
  exact h

theorem and_mask4 (x : Nat) : x &&& 0xF = x % 16 := by
  have h := Nat.and_pow_two_sub_one_eq_mod x 4
  norm_num at h ⊢
  exact h

theorem or_shl4 (a b : Nat) (h : a < 16) : a ||| (b <<< 4) = a + b * 16 := by
  rw [Nat.lor_comm, Nat.shiftLeft_eq, Nat.mul_comm, ← Nat.mul_add_lt_is_or (by norm_num; exact h)]
  norm_num
  ring

theorem get_b32_arith (a : secp256k1_fe_t) :
    secp256k1_fe_get_b32 a =
  [ a.n4 / 0x10000000000 % 256, a.n4 / 0x100000000 % 256, a.n4 / 0x1000000 % 256,
    a.n4 / 0x10000 % 256, a.n4 / 0x100 % 256, a.n4 % 256,
    a.n3 / 0x100000000000 % 256, a.n3 / 0x1000000000 % 256, a.n3 / 0x10000000 % 256,
    a.n3 / 0x100000 % 256, a.n3 / 0x1000 % 256, a.n3 / 0x10 % 256,
    a.n2 / 0x1000000000000 % 16 + a.n3 % 16 * 16,
    a.n2 / 0x10000000000 % 256, a.n2 / 0x100000000 % 256, a.n2 / 0x1000000 % 256,
    a.n2 / 0x10000 % 256, a.n2 / 0x100 % 256, a.n2 % 256,
    a.n1 / 0x100000000000 % 256, a.n1 / 0x1000000000 % 256, a.n1 / 0x10000000 % 256,
    a.n1 / 0x100000 % 256, a.n1 / 0x1000 % 256, a.n1 / 0x10 % 256,
    a.n0 / 0x1000000000000 % 16 + a.n1 % 16 * 16,
    a.n0 / 0x10000000000 % 256, a.n0 / 0x100000000 % 256, a.n0 / 0x1000000 % 256,
    a.n0 / 0x10000 % 256, a.n0 / 0x100 % 256, a.n0 % 256 ] := by
  have h4 : ∀ x : Nat, x % 16 < 16 := fun x => Nat.mod_lt _ (by norm_num)
  simp only [secp256k1_fe_get_b32, and_mask8, and_mask4, or_shl4 _ _ (h4 _), shr_div]
  norm_num

theorem be_encode_unfold (x : Nat) : be_encode x =
  [ x / 256 ^ 31 % 256, x / 256 ^ 30 % 256, x / 256 ^ 29 % 256, x / 256 ^ 28 % 256,
    x / 256 ^ 27 % 256, x / 256 ^ 26 % 256, x / 256 ^ 25 % 256, x / 256 ^ 24 % 256,
    x / 256 ^ 23 % 256, x / 256 ^ 22 % 256, x / 256 ^ 21 % 256, x / 256 ^ 20 % 256,
    x / 256 ^ 19 % 256, x / 256 ^ 18 % 256, x / 256 ^ 17 % 256, x / 256 ^ 16 % 256,
    x / 256 ^ 15 % 256, x / 256 ^ 14 % 256, x / 256 ^ 13 % 256, x / 256 ^ 12 % 256,
    x / 256 ^ 11 % 256, x / 256 ^ 10 % 256, x / 256 ^ 9 % 256, x / 256 ^ 8 % 256,
    x / 256 ^ 7 % 256, x / 256 ^ 6 % 256, x / 256 ^ 5 % 256, x / 256 ^ 4 % 256,
    x / 256 ^ 3 % 256, x / 256 ^ 2 % 256, x / 256 ^ 1 % 256, x / 256 ^ 0 % 256 ] := rfl

theorem get_b32_encode (a : secp256k1_fe_t) (h : limbs_in_range a) :
    secp256k1_fe_get_b32 a = be_encode (value a) := by
  obtain ⟨h0, h1, h2, h3, h4⟩ := h
  rw [get_b32_arith, be_encode_unfold]
  simp only [value, List.cons.injEq, and_true]
  refine ⟨?_, ?_, ?_, ?_, ?_, ?_, ?_, ?_, ?_, ?_, ?_, ?_, ?_, ?_, ?_, ?_, ?_, ?_, ?_, ?_, ?_,
    ?_, ?_, ?_, ?_, ?_, ?_, ?_, ?_, ?_, ?_, ?_⟩ <;> omega

theorem or_nib (acc x s : Nat) (h : acc < 2 ^ s) :
    acc ||| ((x &&& 0xF) <<< s) = acc + (x % 16) * 2 ^ s := by
  have e : x &&& 0xF = x % 2 ^ 4 := by
    have h := Nat.and_pow_two_sub_one_eq_mod x 4
    norm_num at h ⊢
    exact h
  rw [e, Nat.lor_comm, Nat.shiftLeft_eq, Nat.mul_comm, ← Nat.mul_add_lt_is_or h]
  norm_num
  ring

theorem set_b32_unfold (a : List Nat) :
    secp256k1_fe_set_b32 a =
    ⟨(((((((((((((0 |||
      ((a.getD 31 0 >>> 0) &&& 0xF) <<< 0) |||
      ((a.getD 31 0 >>> 4) &&& 0xF) <<< 4) |||
      ((a.getD 30 0 >>> 0) &&& 0xF) <<< 8) |||
      ((a.getD 30 0 >>> 4) &&& 0xF) <<< 12) |||
      ((a.getD 29 0 >>> 0) &&& 0xF) <<< 16) |||
      ((a.getD 29 0 >>> 4) &&& 0xF) <<< 20) |||
      ((a.getD 28 0 >>> 0) &&& 0xF) <<< 24) |||
      ((a.getD 28 0 >>> 4) &&& 0xF) <<< 28) |||
      ((a.getD 27 0 >>> 0) &&& 0xF) <<< 32) |||
      ((a.getD 27 0 >>> 4) &&& 0xF) <<< 36) |||
      ((a.getD 26 0 >>> 0) &&& 0xF) <<< 40) |||
      ((a.getD 26 0 >>> 4) &&& 0xF) <<< 44) |||
      ((a.getD 25 0 >>> 0) &&& 0xF) <<< 48),
     (((((((((((((0 |||
      ((a.getD 25 0 >>> 4) &&& 0xF) <<< 0) |||
      ((a.getD 24 0 >>> 0) &&& 0xF) <<< 4) |||
      ((a.getD 24 0 >>> 4) &&& 0xF) <<< 8) |||
      ((a.getD 23 0 >>> 0) &&& 0xF) <<< 12) |||
      ((a.getD 23 0 >>> 4) &&& 0xF) <<< 16) |||
      ((a.getD 22 0 >>> 0) &&& 0xF) <<< 20) |||
      ((a.getD 22 0 >>> 4) &&& 0xF) <<< 24) |||
      ((a.getD 21 0 >>> 0) &&& 0xF) <<< 28) |||
      ((a.getD 21 0 >>> 4) &&& 0xF) <<< 32) |||
      ((a.getD 20 0 >>> 0) &&& 0xF) <<< 36) |||
      ((a.getD 20 0 >>> 4) &&& 0xF) <<< 40) |||
      ((a.getD 19 0 >>> 0) &&& 0xF) <<< 44) |||
      ((a.getD 19 0 >>> 4) &&& 0xF) <<< 48),
     (((((((((((((0 |||
      ((a.getD 18 0 >>> 0) &&& 0xF) <<< 0) |||
      ((a.getD 18 0 >>> 4) &&& 0xF) <<< 4) |||
      ((a.getD 17 0 >>> 0) &&& 0xF) <<< 8) |||
      ((a.getD 17 0 >>> 4) &&& 0xF) <<< 12) |||
      ((a.getD 16 0 >>> 0) &&& 0xF) <<< 16) |||
      ((a.getD 16 0 >>> 4) &&& 0xF) <<< 20) |||
      ((a.getD 15 0 >>> 0) &&& 0xF) <<< 24) |||
      ((a.getD 15 0 >>> 4) &&& 0xF) <<< 28) |||
      ((a.getD 14 0 >>> 0) &&& 0xF) <<< 32) |||
      ((a.getD 14 0 >>> 4) &&& 0xF) <<< 36) |||
      ((a.getD 13 0 >>> 0) &&& 0xF) <<< 40) |||
      ((a.getD 13 0 >>> 4) &&& 0xF) <<< 44) |||
      ((a.getD 12 0 >>> 0) &&& 0xF) <<< 48),
     (((((((((((((0 |||
      ((a.getD 12 0 >>> 4) &&& 0xF) <<< 0) |||
      ((a.getD 11 0 >>> 0) &&& 0xF) <<< 4) |||
      ((a.getD 11 0 >>> 4) &&& 0xF) <<< 8) |||
      ((a.getD 10 0 >>> 0) &&& 0xF) <<< 12) |||
      ((a.getD 10 0 >>> 4) &&& 0xF) <<< 16) |||
      ((a.getD 9 0 >>> 0) &&& 0xF) <<< 20) |||
      ((a.getD 9 0 >>> 4) &&& 0xF) <<< 24) |||
      ((a.getD 8 0 >>> 0) &&& 0xF) <<< 28) |||
      ((a.getD 8 0 >>> 4) &&& 0xF) <<< 32) |||
      ((a.getD 7 0 >>> 0) &&& 0xF) <<< 36) |||
      ((a.getD 7 0 >>> 4) &&& 0xF) <<< 40) |||
      ((a.getD 6 0 >>> 0) &&& 0xF) <<< 44) |||
      ((a.getD 6 0 >>> 4) &&& 0xF) <<< 48),
     ((((((((((((0 |||
      ((a.getD 5 0 >>> 0) &&& 0xF) <<< 0) |||
      ((a.getD 5 0 >>> 4) &&& 0xF) <<< 4) |||
      ((a.getD 4 0 >>> 0) &&& 0xF) <<< 8) |||
      ((a.getD 4 0 >>> 4) &&& 0xF) <<< 12) |||
      ((a.getD 3 0 >>> 0) &&& 0xF) <<< 16) |||
      ((a.getD 3 0 >>> 4) &&& 0xF) <<< 20) |||
      ((a.getD 2 0 >>> 0) &&& 0xF) <<< 24) |||
      ((a.getD 2 0 >>> 4) &&& 0xF) <<< 28) |||
      ((a.getD 1 0 >>> 0) &&& 0xF) <<< 32) |||
      ((a.getD 1 0 >>> 4) &&& 0xF) <<< 36) |||
      ((a.getD 0 0 >>> 0) &&& 0xF) <<< 40) |||
      ((a.getD 0 0 >>> 4) &&& 0xF) <<< 44)⟩ := rfl



theorem limb_even (x0 x1 x2 x3 x4 x5 x6 : Nat)
    (h0 : x0 < 256) (h1 : x1 < 256) (h2 : x2 < 256) (h3 : x3 < 256) (h4 : x4 < 256) (h5 : x5 < 256) (_h6 : x6 < 256) :
    (((((((((((((0 |||
      ((x0 >>> 0) &&& 0xF) <<< 0) |||
      ((x0 >>> 4) &&& 0xF) <<< 4) |||
      ((x1 >>> 0) &&& 0xF) <<< 8) |||
      ((x1 >>> 4) &&& 0xF) <<< 12) |||
      ((x2 >>> 0) &&& 0xF) <<< 16) |||
      ((x2 >>> 4) &&& 0xF) <<< 20) |||
      ((x3 >>> 0) &&& 0xF) <<< 24) |||
      ((x3 >>> 4) &&& 0xF) <<< 28) |||
      ((x4 >>> 0) &&& 0xF) <<< 32) |||
      ((x4 >>> 4) &&& 0xF) <<< 36) |||
      ((x5 >>> 0) &&& 0xF) <<< 40) |||
      ((x5 >>> 4) &&& 0xF) <<< 44) |||
      ((x6 >>> 0) &&& 0xF) <<< 48)
    = x0 * 0x1 + x1 * 0x100 + x2 * 0x10000 + x3 * 0x1000000 + x4 * 0x100000000 + x5 * 0x10000000000 + x6 % 16 * 0x1000000000000 := by
  simp (disch := omega) only [or_nib, shr_div]
  omega

theorem limb_odd (x0 x1 x2 x3 x4 x5 x6 : Nat)
    (h0 : x0 < 256) (h1 : x1 < 256) (h2 : x2 < 256) (h3 : x3 < 256) (h4 : x4 < 256) (h5 : x5 < 256) (h6 : x6 < 256) :
    (((((((((((((0 |||
      ((x0 >>> 4) &&& 0xF) <<< 0) |||
      ((x1 >>> 0) &&& 0xF) <<< 4) |||
      ((x1 >>> 4) &&& 0xF) <<< 8) |||
      ((x2 >>> 0) &&& 0xF) <<< 12) |||
      ((x2 >>> 4) &&& 0xF) <<< 16) |||
      ((x3 >>> 0) &&& 0xF) <<< 20) |||
      ((x3 >>> 4) &&& 0xF) <<< 24) |||
      ((x4 >>> 0) &&& 0xF) <<< 28) |||
      ((x4 >>> 4) &&& 0xF) <<< 32) |||
      ((x5 >>> 0) &&& 0xF) <<< 36) |||
      ((x5 >>> 4) &&& 0xF) <<< 40) |||
      ((x6 >>> 0) &&& 0xF) <<< 44) |||
      ((x6 >>> 4) &&& 0xF) <<< 48)
    = x0 / 16 + x1 * 0x10 + x2 * 0x1000 + x3 * 0x100000 + x4 * 0x10000000 + x5 * 0x1000000000 + x6 * 0x100000000000 := by
  simp (disch := omega) only [or_nib, shr_div]
  omega

theorem limb_top (x0 x1 x2 x3 x4 x5 : Nat)
    (h0 : x0 < 256) (h1 : x1 < 256) (h2 : x2 < 256) (h3 : x3 < 256) (h4 : x4 < 256) (h5 : x5 < 256) :
    ((((((((((((0 |||
      ((x0 >>> 0) &&& 0xF) <<< 0) |||
      ((x0 >>> 4) &&& 0xF) <<< 4) |||
      ((x1 >>> 0) &&& 0xF) <<< 8) |||
      ((x1 >>> 4) &&& 0xF) <<< 12) |||
      ((x2 >>> 0) &&& 0xF) <<< 16) |||
      ((x2 >>> 4) &&& 0xF) <<< 20) |||
      ((x3 >>> 0) &&& 0xF) <<< 24) |||
      ((x3 >>> 4) &&& 0xF) <<< 28) |||
      ((x4 >>> 0) &&& 0xF) <<< 32) |||
      ((x4 >>> 4) &&& 0xF) <<< 36) |||
      ((x5 >>> 0) &&& 0xF) <<< 40) |||
      ((x5 >>> 4) &&& 0xF) <<< 44)
    = x0 * 0x1 + x1 * 0x100 + x2 * 0x10000 + x3 * 0x1000000 + x4 * 0x100000000 + x5 * 0x10000000000 := by
  simp (disch := omega) only [or_nib, shr_div]
  omega

theorem list_eq_map_getD (b : List Nat) :
    b = (List.range b.length).map (fun i => b.getD i 0) := by
  apply List.ext_getElem
  · simp
  · intro i h1 h2
    simp [List.getD_eq_getElem?_getD, List.getElem?_eq_getElem h1]

theorem list32_eq (b : List Nat) (h : b.length = 32) :
    b = [ b.getD 0 0, b.getD 1 0, b.getD 2 0, b.getD 3 0, b.getD 4 0, b.getD 5 0, b.getD 6 0,
      b.getD 7 0, b.getD 8 0, b.getD 9 0, b.getD 10 0, b.getD 11 0, b.getD 12 0, b.getD 13 0,
      b.getD 14 0, b.getD 15 0, b.getD 16 0, b.getD 17 0, b.getD 18 0, b.getD 19 0,
      b.getD 20 0, b.getD 21 0, b.getD 22 0, b.getD 23 0, b.getD 24 0, b.getD 25 0,
      b.getD 26 0, b.getD 27 0, b.getD 28 0, b.getD 29 0, b.getD 30 0, b.getD 31 0 ] := by
  have e := list_eq_map_getD b
  rw [h] at e
  exact e

theorem b32_byte_lt (b : List Nat) (h : is_b32 b) (i : Nat) : b.getD i 0 < 256 := by
  by_cases hi : i < b.length
  · rw [List.getD_eq_getElem _ _ hi]
    exact h.2 _ (List.getElem_mem hi)
  · rw [List.getD_eq_default _ _ (by omega)]
    norm_num

theorem be_value_unfold (b : List Nat) : be_value b =
    b.getD 0 0 * 256 ^ 31 + (b.getD 1 0 * 256 ^ 30 + (b.getD 2 0 * 256 ^ 29 +
    (b.getD 3 0 * 256 ^ 28 + (b.getD 4 0 * 256 ^ 27 + (b.getD 5 0 * 256 ^ 26 +
    (b.getD 6 0 * 256 ^ 25 + (b.getD 7 0 * 256 ^ 24 + (b.getD 8 0 * 256 ^ 23 +
    (b.getD 9 0 * 256 ^ 22 + (b.getD 10 0 * 256 ^ 21 + (b.getD 11 0 * 256 ^ 20 +
    (b.getD 12 0 * 256 ^ 19 + (b.getD 13 0 * 256 ^ 18 + (b.getD 14 0 * 256 ^ 17 +
    (b.getD 15 0 * 256 ^ 16 + (b.getD 16 0 * 256 ^ 15 + (b.getD 17 0 * 256 ^ 14 +
    (b.getD 18 0 * 256 ^ 13 + (b.getD 19 0 * 256 ^ 12 + (b.getD 20 0 * 256 ^ 11 +
    (b.getD 21 0 * 256 ^ 10 + (b.getD 22 0 * 256 ^ 9 + (b.getD 23 0 * 256 ^ 8 +
    (b.getD 24 0 * 256 ^ 7 + (b.getD 25 0 * 256 ^ 6 + (b.getD 26 0 * 256 ^ 5 +
    (b.getD 27 0 * 256 ^ 4 + (b.getD 28 0 * 256 ^ 3 + (b.getD 29 0 * 256 ^ 2 +
    (b.getD 30 0 * 256 ^ 1 + (b.getD 31 0 * 256 ^ 0 + 0))))))))))))))))))))))))))))))) := rfl


/-- The limbs that `secp256k1_fe_set_b32` produces, byte by byte. -/
theorem set_b32_bytes (b : List Nat) (h : is_b32 b) :
    secp256k1_fe_set_b32 b =
    ⟨b.getD 31 0 * 0x1 + b.getD 30 0 * 0x100 + b.getD 29 0 * 0x10000 + b.getD 28 0 * 0x1000000 + b.getD 27 0 * 0x100000000 + b.getD 26 0 * 0x10000000000 + b.getD 25 0 % 16 * 0x1000000000000,
     b.getD 25 0 / 16 + b.getD 24 0 * 0x10 + b.getD 23 0 * 0x1000 + b.getD 22 0 * 0x100000 + b.getD 21 0 * 0x10000000 + b.getD 20 0 * 0x1000000000 + b.getD 19 0 * 0x100000000000,
     b.getD 18 0 * 0x1 + b.getD 17 0 * 0x100 + b.getD 16 0 * 0x10000 + b.getD 15 0 * 0x1000000 + b.getD 14 0 * 0x100000000 + b.getD 13 0 * 0x10000000000 + b.getD 12 0 % 16 * 0x1000000000000,
     b.getD 12 0 / 16 + b.getD 11 0 * 0x10 + b.getD 10 0 * 0x1000 + b.getD 9 0 * 0x100000 + b.getD 8 0 * 0x10000000 + b.getD 7 0 * 0x1000000000 + b.getD 6 0 * 0x100000000000,
     b.getD 5 0 * 0x1 + b.getD 4 0 * 0x100 + b.getD 3 0 * 0x10000 + b.getD 2 0 * 0x1000000 + b.getD 1 0 * 0x100000000 + b.getD 0 0 * 0x10000000000⟩ := by
  have hb := b32_byte_lt b h
  rw [set_b32_unfold,
    limb_even (b.getD 31 0) (b.getD 30 0) (b.getD 29 0) (b.getD 28 0) (b.getD 27 0) (b.getD 26 0) (b.getD 25 0) (hb 31) (hb 30) (hb 29) (hb 28) (hb 27) (hb 26) (hb 25),
    limb_odd (b.getD 25 0) (b.getD 24 0) (b.getD 23 0) (b.getD 22 0) (b.getD 21 0) (b.getD 20 0) (b.getD 19 0) (hb 25) (hb 24) (hb 23) (hb 22) (hb 21) (hb 20) (hb 19),
    limb_even (b.getD 18 0) (b.getD 17 0) (b.getD 16 0) (b.getD 15 0) (b.getD 14 0) (b.getD 13 0) (b.getD 12 0) (hb 18) (hb 17) (hb 16) (hb 15) (hb 14) (hb 13) (hb 12),
    limb_odd (b.getD 12 0) (b.getD 11 0) (b.getD 10 0) (b.getD 9 0) (b.getD 8 0) (b.getD 7 0) (b.getD 6 0) (hb 12) (hb 11) (hb 10) (hb 9) (hb 8) (hb 7) (hb 6),
    limb_top (b.getD 5 0) (b.getD 4 0) (b.getD 3 0) (b.getD 2 0) (b.getD 1 0) (b.getD 0 0) (hb 5) (hb 4) (hb 3) (hb 2) (hb 1) (hb 0)]

theorem bytes_in_range (x : Nat → Nat) (hx : ∀ i, x i < 256) :
    limbs_in_range
    ⟨x 31 * 0x1 + x 30 * 0x100 + x 29 * 0x10000 + x 28 * 0x1000000 + x 27 * 0x100000000 + x 26 * 0x10000000000 + x 25 % 16 * 0x1000000000000,
     x 25 / 16 + x 24 * 0x10 + x 23 * 0x1000 + x 22 * 0x100000 + x 21 * 0x10000000 + x 20 * 0x1000000000 + x 19 * 0x100000000000,
     x 18 * 0x1 + x 17 * 0x100 + x 16 * 0x10000 + x 15 * 0x1000000 + x 14 * 0x100000000 + x 13 * 0x10000000000 + x 12 % 16 * 0x1000000000000,
     x 12 / 16 + x 11 * 0x10 + x 10 * 0x1000 + x 9 * 0x100000 + x 8 * 0x10000000 + x 7 * 0x1000000000 + x 6 * 0x100000000000,
     x 5 * 0x1 + x 4 * 0x100 + x 3 * 0x10000 + x 2 * 0x1000000 + x 1 * 0x100000000 + x 0 * 0x10000000000⟩ := by
  have h0 := hx 0; have h1 := hx 1; have h2 := hx 2; have h3 := hx 3; have h4 := hx 4; have h5 := hx 5; have h6 := hx 6; have h7 := hx 7
  have h8 := hx 8; have h9 := hx 9; have h10 := hx 10; have h11 := hx 11; have h12 := hx 12; have h13 := hx 13; have h14 := hx 14; have h15 := hx 15
  have h16 := hx 16; have h17 := hx 17; have h18 := hx 18; have h19 := hx 19; have h20 := hx 20; have h21 := hx 21; have h22 := hx 22; have h23 := hx 23
  have h24 := hx 24; have h25 := hx 25; have h26 := hx 26; have h27 := hx 27; have h28 := hx 28; have h29 := hx 29; have h30 := hx 30; have h31 := hx 31
  simp only [limbs_in_range]
  refine ⟨?_, ?_, ?_, ?_, ?_⟩ <;> omega

theorem bytes_value (x : Nat → Nat) (hx : ∀ i, x i < 256) :
    value
    ⟨x 31 * 0x1 + x 30 * 0x100 + x 29 * 0x10000 + x 28 * 0x1000000 + x 27 * 0x100000000 + x 26 * 0x10000000000 + x 25 % 16 * 0x1000000000000,
     x 25 / 16 + x 24 * 0x10 + x 23 * 0x1000 + x 22 * 0x100000 + x 21 * 0x10000000 + x 20 * 0x1000000000 + x 19 * 0x100000000000,
     x 18 * 0x1 + x 17 * 0x100 + x 16 * 0x10000 + x 15 * 0x1000000 + x 14 * 0x100000000 + x 13 * 0x10000000000 + x 12 % 16 * 0x1000000000000,
     x 12 / 16 + x 11 * 0x10 + x 10 * 0x1000 + x 9 * 0x100000 + x 8 * 0x10000000 + x 7 * 0x1000000000 + x 6 * 0x100000000000,
     x 5 * 0x1 + x 4 * 0x100 + x 3 * 0x10000 + x 2 * 0x1000000 + x 1 * 0x100000000 + x 0 * 0x10000000000⟩
    = x 0 * 256 ^ 31 + (x 1 * 256 ^ 30 + (x 2 * 256 ^ 29 + (x 3 * 256 ^ 28 + (x 4 * 256 ^ 27 + (x 5 * 256 ^ 26 + (x 6 * 256 ^ 25 + (x 7 * 256 ^ 24 + (x 8 * 256 ^ 23 + (x 9 * 256 ^ 22 + (x 10 * 256 ^ 21 + (x 11 * 256 ^ 20 + (x 12 * 256 ^ 19 + (x 13 * 256 ^ 18 + (x 14 * 256 ^ 17 + (x 15 * 256 ^ 16 + (x 16 * 256 ^ 15 + (x 17 * 256 ^ 14 + (x 18 * 256 ^ 13 + (x 19 * 256 ^ 12 + (x 20 * 256 ^ 11 + (x 21 * 256 ^ 10 + (x 22 * 256 ^ 9 + (x 23 * 256 ^ 8 + (x 24 * 256 ^ 7 + (x 25 * 256 ^ 6 + (x 26 * 256 ^ 5 + (x 27 * 256 ^ 4 + (x 28 * 256 ^ 3 + (x 29 * 256 ^ 2 + (x 30 * 256 ^ 1 + (x 31 * 256 ^ 0 + 0))))))))))))))))))))))))))))))) := by
  have h0 := hx 0; have h1 := hx 1; have h2 := hx 2; have h3 := hx 3; have h4 := hx 4; have h5 := hx 5; have h6 := hx 6; have h7 := hx 7
  have h8 := hx 8; have h9 := hx 9; have h10 := hx 10; have h11 := hx 11; have h12 := hx 12; have h13 := hx 13; have h14 := hx 14; have h15 := hx 15
  have h16 := hx 16; have h17 := hx 17; have h18 := hx 18; have h19 := hx 19; have h20 := hx 20; have h21 := hx 21; have h22 := hx 22; have h23 := hx 23
  have h24 := hx 24; have h25 := hx 25; have h26 := hx 26; have h27 := hx 27; have h28 := hx 28; have h29 := hx 29; have h30 := hx 30; have h31 := hx 31
  simp only [value]
  omega

theorem bytes_get_b32 (x : Nat → Nat) (hx : ∀ i, x i < 256) :
    secp256k1_fe_get_b32
    ⟨x 31 * 0x1 + x 30 * 0x100 + x 29 * 0x10000 + x 28 * 0x1000000 + x 27 * 0x100000000 + x 26 * 0x10000000000 + x 25 % 16 * 0x1000000000000,
     x 25 / 16 + x 24 * 0x10 + x 23 * 0x1000 + x 22 * 0x100000 + x 21 * 0x10000000 + x 20 * 0x1000000000 + x 19 * 0x100000000000,
     x 18 * 0x1 + x 17 * 0x100 + x 16 * 0x10000 + x 15 * 0x1000000 + x 14 * 0x100000000 + x 13 * 0x10000000000 + x 12 % 16 * 0x1000000000000,
     x 12 / 16 + x 11 * 0x10 + x 10 * 0x1000 + x 9 * 0x100000 + x 8 * 0x10000000 + x 7 * 0x1000000000 + x 6 * 0x100000000000,
     x 5 * 0x1 + x 4 * 0x100 + x 3 * 0x10000 + x 2 * 0x1000000 + x 1 * 0x100000000 + x 0 * 0x10000000000⟩
    = [ x 0, x 1, x 2, x 3, x 4, x 5, x 6, x 7, x 8, x 9, x 10, x 11, x 12, x 13, x 14, x 15, x 16, x 17, x 18, x 19, x 20, x 21, x 22, x 23, x 24, x 25, x 26, x 27, x 28, x 29, x 30, x 31 ] := by
  have h0 := hx 0; have h1 := hx 1; have h2 := hx 2; have h3 := hx 3; have h4 := hx 4; have h5 := hx 5; have h6 := hx 6; have h7 := hx 7
  have h8 := hx 8; have h9 := hx 9; have h10 := hx 10; have h11 := hx 11; have h12 := hx 12; have h13 := hx 13; have h14 := hx 14; have h15 := hx 15
  have h16 := hx 16; have h17 := hx 17; have h18 := hx 18; have h19 := hx 19; have h20 := hx 20; have h21 := hx 21; have h22 := hx 22; have h23 := hx 23
  have h24 := hx 24; have h25 := hx 25; have h26 := hx 26; have h27 := hx 27; have h28 := hx 28; have h29 := hx 29; have h30 := hx 30; have h31 := hx 31
  rw [get_b32_arith]
  simp only [List.cons.injEq, and_true]
  refine ⟨?_, ?_, ?_, ?_, ?_, ?_, ?_, ?_, ?_, ?_, ?_, ?_, ?_, ?_, ?_, ?_, ?_, ?_, ?_, ?_, ?_,
    ?_, ?_, ?_, ?_, ?_, ?_, ?_, ?_, ?_, ?_, ?_⟩ <;> omega

theorem set_b32_in_range (b : List Nat) (h : is_b32 b) :
    limbs_in_range (secp256k1_fe_set_b32 b) := by
  rw [set_b32_bytes b h]
  exact bytes_in_range (fun i => b.getD i 0) (b32_byte_lt b h)

theorem set_b32_value (b : List Nat) (h : is_b32 b) :
    value (secp256k1_fe_set_b32 b) = be_value b := by
  rw [set_b32_bytes b h, be_value_unfold]
  exact bytes_value (fun i => b.getD i 0) (b32_byte_lt b h)

theorem get_set_b32 (b : List Nat) (h : is_b32 b) :
    secp256k1_fe_get_b32 (secp256k1_fe_set_b32 b) = b := by
  rw [set_b32_bytes b h]
  exact (bytes_get_b32 (fun i => b.getD i 0) (b32_byte_lt b h)).trans (list32_eq b h.1).symm

/-! ## Normalization: canonical representative and idempotence -/

/-- Claim C1: for an element within the magnitude-`M` limb bound with `M ≤ 32`,
`secp256k1_fe_normalize` returns (passing both assertions) limbs with
`n0..n3 < 2^52` and `n4 < 2^48` whose value is `value a mod p`; hence the output
is below `p` and congruent to the input. -/
theorem normalize_canonical (a : secp256k1_fe_t) (M : Nat) (hM : M ≤ 32) (h : mag_le M a) :
    ∃ r, secp256k1_fe_normalize a = some r ∧
      r.n0 < 2 ^ 52 ∧ r.n1 < 2 ^ 52 ∧ r.n2 < 2 ^ 52 ∧ r.n3 < 2 ^ 52 ∧ r.n4 < 2 ^ 48 ∧
      value r = value a % p ∧ value r < p ∧ value r % p = value a % p := by
  obtain ⟨out, h1, ⟨⟨r0, r1, r2, r3, r4⟩, hlt⟩, h3⟩ := normalize_mag a (mag_mono a M 32 hM h)
  refine ⟨out, h1, r0, r1, r2, r3, r4, h3, hlt, ?_⟩
  rw [h3, Nat.mod_mod]

/-- Claim C1 at the magnitude-32 element with every limb at its bound. -/
theorem normalize_canonical_witness :
    (32 : Nat) ≤ 32 ∧ mag_le 32 fe_mag32_max ∧
    ∃ r, secp256k1_fe_normalize fe_mag32_max = some r ∧
      r.n0 < 2 ^ 52 ∧ r.n1 < 2 ^ 52 ∧ r.n2 < 2 ^ 52 ∧ r.n3 < 2 ^ 52 ∧ r.n4 < 2 ^ 48 ∧
      value r = value fe_mag32_max % p ∧ value r < p ∧
      value r % p = value fe_mag32_max % p :=
  ⟨by decide, by decide, normalize_canonical fe_mag32_max 32 (by decide) (by decide)⟩

/-- Claim C4: normalization is idempotent limb for limb: for every 5-tuple `a`
of 64-bit limbs, `secp256k1_fe_normalize a` returns some `r`, and normalizing `r`
again returns exactly the same five limbs `r`. -/
theorem normalize_idempotent (a : secp256k1_fe_t) (_h : limbs64 a) :
    ∃ r, secp256k1_fe_normalize a = some r ∧ secp256k1_fe_normalize r = some r := by
  obtain ⟨out, h1, h2, _⟩ := normalize_pass1 a
  exact ⟨out, h1, normalize_fix out h2⟩

/-- Claim C4 at the element whose five limbs are all `2^64 - 1`. -/
theorem normalize_idempotent_witness :
    limbs64 fe_all_ones ∧
    ∃ r, secp256k1_fe_normalize fe_all_ones = some r ∧ secp256k1_fe_normalize r = some r :=
  ⟨by decide, normalize_idempotent fe_all_ones (by decide)⟩

/-! ## Serialization round trips -/

theorem set_b32_normalized (b : List Nat) (h : is_b32 b) (hp : be_value b < p) :
    normalized (secp256k1_fe_set_b32 b) :=
  ⟨set_b32_in_range b h, by rw [set_b32_value b h]; exact hp⟩

/-- Claim C2: byte round trip: for every 32-byte buffer `b` whose big-endian
integer is below `p`, `secp256k1_fe_get_b32 (secp256k1_fe_set_b32 b)` is `b`
byte for byte. -/
theorem b32_round_trip (b : List Nat) (h : is_b32 b) (_hp : be_value b < p) :
    secp256k1_fe_get_b32 (secp256k1_fe_set_b32 b) = b :=
  get_set_b32 b h

/-- Claim C2 at the buffer `00 .. 00 01 02 03`. -/
theorem b32_round_trip_witness :
    is_b32 buf_123 ∧ be_value buf_123 < p ∧
    secp256k1_fe_get_b32 (secp256k1_fe_set_b32 buf_123) = buf_123 :=
  ⟨by decide, by decide, b32_round_trip buf_123 (by decide) (by decide)⟩

/-- Claim C3: round trip through normalization: for every 32-byte buffer `b`
whose big-endian integer is below `p`, normalization leaves the limbs produced
by `secp256k1_fe_set_b32` unchanged, and serializing the normalized element
gives back `b`. -/
theorem b32_normalize_round_trip (b : List Nat) (h : is_b32 b) (hp : be_value b < p) :
    secp256k1_fe_normalize (secp256k1_fe_set_b32 b) = some (secp256k1_fe_set_b32 b) ∧
    (secp256k1_fe_normalize (secp256k1_fe_set_b32 b)).map secp256k1_fe_get_b32 = some b := by
  have e := normalize_fix _ (set_b32_normalized b h hp)
  refine ⟨e, ?_⟩
  rw [e]
  show some (secp256k1_fe_get_b32 (secp256k1_fe_set_b32 b)) = some b
  rw [get_set_b32 b h]

/-- Claim C3 at scenario S3, the encoding `FF .. FE FFFFFC2E` of `p - 1`. -/
theorem b32_normalize_round_trip_witness :
    is_b32 buf_p_minus_1 ∧ be_value buf_p_minus_1 = p - 1 ∧ be_value buf_p_minus_1 < p ∧
    secp256k1_fe_normalize (secp256k1_fe_set_b32 buf_p_minus_1)
      = some (secp256k1_fe_set_b32 buf_p_minus_1) ∧
    (secp256k1_fe_normalize (secp256k1_fe_set_b32 buf_p_minus_1)).map secp256k1_fe_get_b32
      = some buf_p_minus_1 :=
  ⟨by decide, by decide, by decide,
    b32_normalize_round_trip buf_p_minus_1 (by decide) (by decide)⟩

/-- Claim C10: out-of-range bytes are reduced by exactly `p`: for every 32-byte
buffer `b` whose big-endian integer `B` satisfies `p ≤ B < 2^256`,
`secp256k1_fe_set_b32 b` is a plain limb tuple (the function has no error
result), and serializing its normalization gives the 32-byte big-endian
encoding of `B - p`. -/
theorem b32_out_of_range (b : List Nat) (h : is_b32 b) (hp : p ≤ be_value b)
    (hB : be_value b < 2 ^ 256) :
    (secp256k1_fe_normalize (secp256k1_fe_set_b32 b)).map secp256k1_fe_get_b32
      = some (be_encode (be_value b - p)) := by
  obtain ⟨out, h1, h2, h3⟩ := normalize_mag _
    (mag_mono _ 1 32 (by norm_num) (mag_of_in_range _ (set_b32_in_range b h)))
  rw [h1]
  show some (secp256k1_fe_get_b32 out) = some (be_encode (be_value b - p))
  rw [get_b32_encode out h2.1, h3, set_b32_value b h]
  have e : be_value b % p = be_value b - p := by
    simp only [p] at hp ⊢
    omega
  rw [e]

/-- Claim C10 at the all-`FF` buffer, `B = 2^256 - 1`: the result encodes
`2^32 + 976`. -/
theorem b32_out_of_range_witness :
    is_b32 buf_all_ff ∧ p ≤ be_value buf_all_ff ∧ be_value buf_all_ff < 2 ^ 256 ∧
    (secp256k1_fe_normalize (secp256k1_fe_set_b32 buf_all_ff)).map secp256k1_fe_get_b32
      = some (be_encode (be_value buf_all_ff - p)) ∧
    be_encode (be_value buf_all_ff - p) =
      [0, 0, 0, 0, 0, 0, 0, 0, 0, 0, 0, 0, 0, 0, 0, 0, 0, 0, 0, 0, 0, 0, 0, 0, 0, 0, 0,
       0x01, 0x00, 0x00, 0x03, 0xD0] :=
  ⟨by decide, by decide, by decide,
    b32_out_of_range buf_all_ff (by decide) (by decide) (by decide), by decide⟩

/-! ## Negation -/

theorem u64_of_int_two : u64_of_int (1 + 1) = 2 := by decide

/-- With argument `m = 1` and limbs in canonical range no subtraction wraps. -/
theorem negate_one_eq (a : secp256k1_fe_t) (h : limbs_in_range a) :
    secp256k1_fe_negate a 1 =
      ⟨0x1FFFFDFFFFF85E - a.n0, 0x1FFFFFFFFFFFFE - a.n1, 0x1FFFFFFFFFFFFE - a.n2,
       0x1FFFFFFFFFFFFE - a.n3, 0x1FFFFFFFFFFFE - a.n4⟩ := by
  obtain ⟨h0, h1, h2, h3, h4⟩ := h
  simp only [secp256k1_fe_negate, u64_of_int_two, u64, u64_sub, secp256k1_fe_t.mk.injEq]
  refine ⟨?_, ?_, ?_, ?_, ?_⟩ <;> omega

/-- Claim C5 fails on the code: the element `(2^53 - 1, 0, 0, 0, 0)` satisfies
the magnitude-1 bound of the header comment, yet the constant
`0xFFFFEFFFFFC2F * (1 + 1)` used by `secp256k1_fe_negate` with `m = 1` is below
its limb `n0`, the 64-bit subtraction wraps to `2^64 + 2*p_0 - (2^53 - 1)`, and
the normalized result does not have the value `(p - value a) mod p`. -/
theorem negate_wraps_at_magnitude_one :
    mag_le 1 fe_limb0_max ∧
    0xFFFFEFFFFFC2F * (1 + 1) < fe_limb0_max.n0 ∧
    (secp256k1_fe_negate fe_limb0_max 1).n0
      = 2 ^ 64 + 0xFFFFEFFFFFC2F * (1 + 1) - (2 ^ 53 - 1) ∧
    (secp256k1_fe_normalize (secp256k1_fe_negate fe_limb0_max 1)).map value
      ≠ some ((p - value fe_limb0_max % p) % p) := by
  decide

/-- Claim C6: additive inverse: for every normalized `a`, negating with
`m = 1`, adding `a` and normalizing yields the all-zero element, on which
`secp256k1_fe_is_zero` returns true. -/
theorem negate_add_is_zero (a : secp256k1_fe_t) (h : normalized a) :
    ∃ s, secp256k1_fe_normalize (secp256k1_fe_add (secp256k1_fe_negate a 1) a) = some s ∧
      s = ⟨0, 0, 0, 0, 0⟩ ∧ secp256k1_fe_is_zero s = true := by
  have e : secp256k1_fe_add (secp256k1_fe_negate a 1) a
      = ⟨0x1FFFFDFFFFF85E, 0x1FFFFFFFFFFFFE, 0x1FFFFFFFFFFFFE, 0x1FFFFFFFFFFFFE,
         0x1FFFFFFFFFFFE⟩ := by
    obtain ⟨h0, h1, h2, h3, h4⟩ := h.1
    rw [negate_one_eq a h.1]
    simp only [secp256k1_fe_add, u64, secp256k1_fe_t.mk.injEq]
    refine ⟨?_, ?_, ?_, ?_, ?_⟩ <;> omega
  rw [e]
  exact ⟨⟨0, 0, 0, 0, 0⟩, by decide, rfl, by decide⟩

/-- Claim C6 at the normalized element with limbs `(5, 4, 3, 2, 1)`. -/
theorem negate_add_is_zero_witness :
    normalized ⟨5, 4, 3, 2, 1⟩ ∧
    ∃ s, secp256k1_fe_normalize
        (secp256k1_fe_add (secp256k1_fe_negate ⟨5, 4, 3, 2, 1⟩ 1) ⟨5, 4, 3, 2, 1⟩) = some s ∧
      s = ⟨0, 0, 0, 0, 0⟩ ∧ secp256k1_fe_is_zero s = true :=
  ⟨by decide, negate_add_is_zero ⟨5, 4, 3, 2, 1⟩ (by decide)⟩

/-- Claim C7: negation is congruent to `-a`: for every normalized `a`,
serializing the normalization of `secp256k1_fe_negate a 1` gives the 32-byte
big-endian encoding of `(p - value a) mod p`. -/
theorem negate_get_b32 (a : secp256k1_fe_t) (h : normalized a) :
    (secp256k1_fe_normalize (secp256k1_fe_negate a 1)).map secp256k1_fe_get_b32
      = some (be_encode ((p - value a) % p)) := by
  obtain ⟨⟨h0, h1, h2, h3, h4⟩, hv⟩ := h
  have hm : mag_le 32 (secp256k1_fe_negate a 1) := by
    rw [negate_one_eq a ⟨h0, h1, h2, h3, h4⟩]
    simp only [mag_le]
    omega
  have hval : value (secp256k1_fe_negate a 1) = (p - value a) + p := by
    rw [negate_one_eq a ⟨h0, h1, h2, h3, h4⟩]
    simp only [value, p] at hv ⊢
    omega
  obtain ⟨out, e1, e2, e3⟩ := normalize_mag _ hm
  rw [e1]
  show some (secp256k1_fe_get_b32 out) = some (be_encode ((p - value a) % p))
  rw [get_b32_encode out e2.1, e3, hval, Nat.add_mod_right]

/-- Claim C7 at scenario S4: `a = set_int(1)` serializes to
`FF .. FE FFFFFC2E`, the encoding of `p - 1`. -/
theorem negate_get_b32_witness :
    normalized (secp256k1_fe_set_int 1) ∧
    (secp256k1_fe_normalize (secp256k1_fe_negate (secp256k1_fe_set_int 1) 1)).map
        secp256k1_fe_get_b32
      = some (be_encode ((p - value (secp256k1_fe_set_int 1)) % p)) ∧
    (p - value (secp256k1_fe_set_int 1)) % p = p - 1 ∧
    be_encode ((p - value (secp256k1_fe_set_int 1)) % p) = buf_p_minus_1 :=
  ⟨by decide, negate_get_b32 (secp256k1_fe_set_int 1) (by decide), by decide, by decide⟩

/-! ## Addition and multiplication by a small integer -/

/-- Claim C8: field addition is correct after normalization: for normalized
`a` and `b`, `secp256k1_fe_normalize (secp256k1_fe_add a b)` returns the
normalized element whose value is `(value a + value b) mod p`. -/
theorem add_normalize (a b : secp256k1_fe_t) (ha : normalized a) (hb : normalized b) :
    ∃ r, secp256k1_fe_normalize (secp256k1_fe_add a b) = some r ∧ normalized r ∧
      value r = (value a + value b) % p := by
  obtain ⟨⟨a0, a1, a2, a3, a4⟩, _⟩ := ha
  obtain ⟨⟨b0, b1, b2, b3, b4⟩, _⟩ := hb
  have hm : mag_le 32 (secp256k1_fe_add a b) := by
    simp only [mag_le, secp256k1_fe_add, u64]
    omega
  have hval : value (secp256k1_fe_add a b) = value a + value b := by
    simp only [value, secp256k1_fe_add, u64]
    omega
  obtain ⟨out, e1, e2, e3⟩ := normalize_mag _ hm
  exact ⟨out, e1, e2, by rw [e3, hval]⟩

/-- Claim C8 at scenario S5: with `a = b = set_b32(encoding of p - 1)` limb
`n4` equals `2 * 0x0FFFFFFFFFFFF` before normalization and the normalized value
is `2 * (p - 1) mod p = p - 2`. -/
theorem add_normalize_witness :
    normalized (secp256k1_fe_set_b32 buf_p_minus_1) ∧
    (secp256k1_fe_add (secp256k1_fe_set_b32 buf_p_minus_1)
      (secp256k1_fe_set_b32 buf_p_minus_1)).n4 = 2 * 0x0FFFFFFFFFFFF ∧
    (value (secp256k1_fe_set_b32 buf_p_minus_1) + value (secp256k1_fe_set_b32 buf_p_minus_1)) % p
      = p - 2 ∧
    ∃ r, secp256k1_fe_normalize (secp256k1_fe_add (secp256k1_fe_set_b32 buf_p_minus_1)
        (secp256k1_fe_set_b32 buf_p_minus_1)) = some r ∧ normalized r ∧
      value r = (value (secp256k1_fe_set_b32 buf_p_minus_1)
        + value (secp256k1_fe_set_b32 buf_p_minus_1)) % p :=
  ⟨by decide, by decide, by decide,
    add_normalize (secp256k1_fe_set_b32 buf_p_minus_1) (secp256k1_fe_set_b32 buf_p_minus_1)
      (by decide) (by decide)⟩

theorem add_times_limbs (a : secp256k1_fe_t) (h : limbs64 a) (n : Nat) :
    add_times a n = ⟨((n + 1) * a.n0) % 2 ^ 64, ((n + 1) * a.n1) % 2 ^ 64,
      ((n + 1) * a.n2) % 2 ^ 64, ((n + 1) * a.n3) % 2 ^ 64, ((n + 1) * a.n4) % 2 ^ 64⟩ := by
  obtain ⟨h0, h1, h2, h3, h4⟩ := h
  have step : ∀ m x : Nat, ((m + 1) * x % 2 ^ 64 + x) % 2 ^ 64 = (m + 1 + 1) * x % 2 ^ 64 := by
    intro m x
    have e : (m + 1 + 1) * x = (m + 1) * x + x := by ring
    rw [e]
    omega
  induction n with
  | zero =>
    obtain ⟨a0, a1, a2, a3, a4⟩ := a
    simp only [add_times, secp256k1_fe_t.mk.injEq] at *
    refine ⟨?_, ?_, ?_, ?_, ?_⟩ <;> omega
  | succ n ih =>
    simp only [add_times, ih, secp256k1_fe_add, u64, step]

theorem mul_int_limbs (a : secp256k1_fe_t) (k : Int) (h1 : 1 ≤ k) (h2 : k ≤ 32) :
    secp256k1_fe_mul_int a k = ⟨(k.toNat * a.n0) % 2 ^ 64, (k.toNat * a.n1) % 2 ^ 64,
      (k.toNat * a.n2) % 2 ^ 64, (k.toNat * a.n3) % 2 ^ 64, (k.toNat * a.n4) % 2 ^ 64⟩ := by
  have e : u64_of_int k = k.toNat := by
    unfold u64_of_int
    omega
  simp only [secp256k1_fe_mul_int, e, u64, Nat.mul_comm]

/-- Claim C9: multiply-by-small equals repeated addition: for every normalized
`a` and every `int` `k` with `1 ≤ k ≤ 32`, `secp256k1_fe_mul_int a k` has the same
five limbs as `a` with `secp256k1_fe_add _ a` applied another `k - 1` times;
both normalize to the same normalized element, of value `k * value a mod p`. -/
theorem mul_int_eq_add_times (a : secp256k1_fe_t) (k : Int) (ha : normalized a)
    (h1 : 1 ≤ k) (h2 : k ≤ 32) :
    secp256k1_fe_mul_int a k = add_times a (k.toNat - 1) ∧
    ∃ r, secp256k1_fe_normalize (secp256k1_fe_mul_int a k) = some r ∧
      secp256k1_fe_normalize (add_times a (k.toNat - 1)) = some r ∧
      normalized r ∧ value r = (k.toNat * value a) % p := by
  obtain ⟨⟨a0, a1, a2, a3, a4⟩, _⟩ := ha
  have hk : k.toNat - 1 + 1 = k.toNat := by omega
  have hn : k.toNat ≤ 32 := by omega
  have e1 : secp256k1_fe_mul_int a k = add_times a (k.toNat - 1) := by
    rw [mul_int_limbs a k h1 h2, add_times_limbs a (by simp only [limbs64]; omega), hk]
  have b0 : k.toNat * a.n0 ≤ 32 * (2 ^ 52 - 1) := Nat.mul_le_mul hn (by omega)
  have b1 : k.toNat * a.n1 ≤ 32 * (2 ^ 52 - 1) := Nat.mul_le_mul hn (by omega)
  have b2 : k.toNat * a.n2 ≤ 32 * (2 ^ 52 - 1) := Nat.mul_le_mul hn (by omega)
  have b3 : k.toNat * a.n3 ≤ 32 * (2 ^ 52 - 1) := Nat.mul_le_mul hn (by omega)
  have b4 : k.toNat * a.n4 ≤ 32 * (2 ^ 48 - 1) := Nat.mul_le_mul hn (by omega)
  have e2 : secp256k1_fe_mul_int a k = ⟨k.toNat * a.n0, k.toNat * a.n1, k.toNat * a.n2,
      k.toNat * a.n3, k.toNat * a.n4⟩ := by
    rw [mul_int_limbs a k h1 h2]
    simp only [secp256k1_fe_t.mk.injEq]
    refine ⟨?_, ?_, ?_, ?_, ?_⟩ <;> omega
  have hm : mag_le 32 (secp256k1_fe_mul_int a k) := by
    rw [e2]
    simp only [mag_le]
    omega
  have hval : value (secp256k1_fe_mul_int a k) = k.toNat * value a := by
    rw [e2]
    simp only [value]
    ring
  obtain ⟨out, n1, n2, n3⟩ := normalize_mag _ hm
  refine ⟨e1, out, n1, ?_, n2, ?_⟩
  · rw [← e1, n1]
  · rw [n3, hval]

/-- Claim C9 at the element of value `p - 1` and `k = 32`. -/
theorem mul_int_eq_add_times_witness :
    normalized fe_p_minus_1 ∧ (1 : Int) ≤ 32 ∧ (32 : Int) ≤ 32 ∧
    secp256k1_fe_mul_int fe_p_minus_1 32 = add_times fe_p_minus_1 ((32 : Int).toNat - 1) ∧
    ∃ r, secp256k1_fe_normalize (secp256k1_fe_mul_int fe_p_minus_1 32) = some r ∧
      secp256k1_fe_normalize (add_times fe_p_minus_1 ((32 : Int).toNat - 1)) = some r ∧
      normalized r ∧ value r = ((32 : Int).toNat * value fe_p_minus_1) % p :=
  ⟨by decide, by decide, by decide,
    mul_int_eq_add_times fe_p_minus_1 32 (by decide) (by decide) (by decide)⟩

/-! ## Decoding, injectivity and small constants -/

/-- Claim C11: `secp256k1_fe_set_b32` decodes big-endian: for every 32-byte
buffer `b` the result has `n0..n3 < 2^52` and `n4 < 2^48` (so it satisfies the
magnitude-1 bound) and `n0 + n1*2^52 + n2*2^104 + n3*2^156 + n4*2^208` equals
the big-endian integer of `b`, the sum of `b[i] * 256^(31-i)`. -/
theorem set_b32_decodes (b : List Nat) (h : is_b32 b) :
    (secp256k1_fe_set_b32 b).n0 < 2 ^ 52 ∧ (secp256k1_fe_set_b32 b).n1 < 2 ^ 52 ∧
    (secp256k1_fe_set_b32 b).n2 < 2 ^ 52 ∧ (secp256k1_fe_set_b32 b).n3 < 2 ^ 52 ∧
    (secp256k1_fe_set_b32 b).n4 < 2 ^ 48 ∧ mag_le 1 (secp256k1_fe_set_b32 b) ∧
    (secp256k1_fe_set_b32 b).n0 + (secp256k1_fe_set_b32 b).n1 * 2 ^ 52 +
      (secp256k1_fe_set_b32 b).n2 * 2 ^ 104 + (secp256k1_fe_set_b32 b).n3 * 2 ^ 156 +
      (secp256k1_fe_set_b32 b).n4 * 2 ^ 208 = be_value b := by
  obtain ⟨h0, h1, h2, h3, h4⟩ := set_b32_in_range b h
  exact ⟨h0, h1, h2, h3, h4, mag_of_in_range _ ⟨h0, h1, h2, h3, h4⟩, set_b32_value b h⟩

/-- Claim C11 at the all-`FF` buffer, whose integer is `2^256 - 1`. -/
theorem set_b32_decodes_witness :
    is_b32 buf_all_ff ∧ be_value buf_all_ff = 2 ^ 256 - 1 ∧
    (secp256k1_fe_set_b32 buf_all_ff).n0 < 2 ^ 52 ∧
    (secp256k1_fe_set_b32 buf_all_ff).n1 < 2 ^ 52 ∧
    (secp256k1_fe_set_b32 buf_all_ff).n2 < 2 ^ 52 ∧
    (secp256k1_fe_set_b32 buf_all_ff).n3 < 2 ^ 52 ∧
    (secp256k1_fe_set_b32 buf_all_ff).n4 < 2 ^ 48 ∧ mag_le 1 (secp256k1_fe_set_b32 buf_all_ff) ∧
    (secp256k1_fe_set_b32 buf_all_ff).n0 + (secp256k1_fe_set_b32 buf_all_ff).n1 * 2 ^ 52 +
      (secp256k1_fe_set_b32 buf_all_ff).n2 * 2 ^ 104 +
      (secp256k1_fe_set_b32 buf_all_ff).n3 * 2 ^ 156 +
      (secp256k1_fe_set_b32 buf_all_ff).n4 * 2 ^ 208 = be_value buf_all_ff :=
  ⟨by decide, by decide, set_b32_decodes buf_all_ff (by decide)⟩

theorem get_b32_is_b32 (a : secp256k1_fe_t) : is_b32 (secp256k1_fe_get_b32 a) := by
  refine ⟨rfl, ?_⟩
  intro x hx
  rw [get_b32_arith] at hx
  simp only [List.mem_cons, List.mem_singleton, List.not_mem_nil, or_false] at hx
  omega

theorem set_get_b32_limbs (a : secp256k1_fe_t) (h : limbs_in_range a) :
    secp256k1_fe_set_b32 (secp256k1_fe_get_b32 a) = a := by
  have hb := get_b32_is_b32 a
  rw [set_b32_bytes _ hb, get_b32_arith]
  obtain ⟨a0, a1, a2, a3, a4⟩ := a
  obtain ⟨h0, h1, h2, h3, h4⟩ := h
  simp only [List.getD_cons_zero, List.getD_cons_succ, secp256k1_fe_t.mk.injEq] at *
  refine ⟨?_, ?_, ?_, ?_, ?_⟩ <;> omega

/-- Claim C12: serialization is injective on normalized inputs: for every
normalized `a`, `secp256k1_fe_set_b32 (secp256k1_fe_get_b32 a)` has exactly the
limbs of `a`; consequently a normalized `c` with the same `get_b32` output as
`a` is limb for limb equal to `a`. -/
theorem set_get_b32 (a : secp256k1_fe_t) (h : normalized a) :
    secp256k1_fe_set_b32 (secp256k1_fe_get_b32 a) = a ∧
    ∀ c, normalized c → secp256k1_fe_get_b32 c = secp256k1_fe_get_b32 a → c = a := by
  refine ⟨set_get_b32_limbs a h.1, ?_⟩
  intro c hc e
  rw [← set_get_b32_limbs c hc.1, e, set_get_b32_limbs a h.1]

/-- Claim C12 at the normalized element of value `p - 1`. -/
theorem set_get_b32_witness :
    normalized fe_p_minus_1 ∧
    secp256k1_fe_set_b32 (secp256k1_fe_get_b32 fe_p_minus_1) = fe_p_minus_1 ∧
    ∀ c, normalized c → secp256k1_fe_get_b32 c = secp256k1_fe_get_b32 fe_p_minus_1 →
      c = fe_p_minus_1 :=
  ⟨by decide, set_get_b32 fe_p_minus_1 (by decide)⟩

/-- Claim C13: `secp256k1_fe_set_int` builds a normalized small constant: for
every `int` `a` with `0 ≤ a < 2^31` the result has `n0 = a`, the other limbs
zero, is normalized, and `secp256k1_fe_get_b32` of it is the 32-byte big-endian
encoding of `a`. -/
theorem set_int_small (a : Int) (h0 : 0 ≤ a) (h1 : a < 2 ^ 31) :
    secp256k1_fe_set_int a = ⟨a.toNat, 0, 0, 0, 0⟩ ∧
    normalized (secp256k1_fe_set_int a) ∧
    secp256k1_fe_get_b32 (secp256k1_fe_set_int a) = be_encode a.toNat := by
  have e : secp256k1_fe_set_int a = ⟨a.toNat, 0, 0, 0, 0⟩ := by
    simp only [secp256k1_fe_set_int, u64_of_int, secp256k1_fe_t.mk.injEq, and_true]
    omega
  have hr : limbs_in_range (secp256k1_fe_set_int a) := by
    rw [e]
    simp only [limbs_in_range]
    omega
  have hv : value (secp256k1_fe_set_int a) = a.toNat := by
    rw [e]
    simp only [value]
    omega
  refine ⟨e, ⟨hr, ?_⟩, ?_⟩
  · rw [hv]
    simp only [p]
    omega
  · rw [get_b32_encode _ hr, hv]

/-- Claim C13 at `a = 1` (scenario S2): 31 zero bytes followed by `0x01`; and
scenario S1, `a = 0`: 32 zero bytes. -/
theorem set_int_small_witness :
    ((0 : Int) ≤ 0 ∧ (0 : Int) < 2 ^ 31 ∧ (0 : Int) ≤ 1 ∧ (1 : Int) < 2 ^ 31) ∧
    (secp256k1_fe_set_int 1 = ⟨(1 : Int).toNat, 0, 0, 0, 0⟩ ∧
      normalized (secp256k1_fe_set_int 1) ∧
      secp256k1_fe_get_b32 (secp256k1_fe_set_int 1) = be_encode (1 : Int).toNat) ∧
    secp256k1_fe_get_b32 (secp256k1_fe_set_int 0) =
      [0, 0, 0, 0, 0, 0, 0, 0, 0, 0, 0, 0, 0, 0, 0, 0, 0, 0, 0, 0, 0, 0, 0, 0, 0, 0, 0, 0,
       0, 0, 0, 0] ∧
    secp256k1_fe_get_b32 (secp256k1_fe_set_int 1) =
      [0, 0, 0, 0, 0, 0, 0, 0, 0, 0, 0, 0, 0, 0, 0, 0, 0, 0, 0, 0, 0, 0, 0, 0, 0, 0, 0, 0,
       0, 0, 0, 1] :=
  ⟨by decide, set_int_small 1 (by decide) (by decide), by decide, by decide⟩

/-- Claim C14: equality on normalized elements decides equality in GF(p): for
normalized `a` and `b`, `secp256k1_fe_equal a b` returns nonzero exactly when
`value a` and `value b` are congruent modulo `p`, which is exactly when the
limbs coincide (the normalized form of a residue is unique). -/
theorem equal_iff_congruent (a b : secp256k1_fe_t) (ha : normalized a) (hb : normalized b) :
    (secp256k1_fe_equal a b = true ↔ value a % p = value b % p) ∧
    (secp256k1_fe_equal a b = true ↔ a = b) := by
  have hlimb : secp256k1_fe_equal a b = true ↔ a = b := by
    obtain ⟨a0, a1, a2, a3, a4⟩ := a
    obtain ⟨b0, b1, b2, b3, b4⟩ := b
    simp only [secp256k1_fe_equal, Bool.and_eq_true, beq_iff_eq, secp256k1_fe_t.mk.injEq,
      and_assoc]
  refine ⟨?_, hlimb⟩
  rw [hlimb, Nat.mod_eq_of_lt ha.2, Nat.mod_eq_of_lt hb.2]
  constructor
  · intro h
    rw [h]
  · exact value_inj a b ha.1 hb.1

/-- Claim C14 at the normalized elements of value `p - 1` and `1`. -/
theorem equal_iff_congruent_witness :
    normalized fe_p_minus_1 ∧ normalized (secp256k1_fe_set_int 1) ∧
    ((secp256k1_fe_equal fe_p_minus_1 (secp256k1_fe_set_int 1) = true ↔
        value fe_p_minus_1 % p = value (secp256k1_fe_set_int 1) % p) ∧
      (secp256k1_fe_equal fe_p_minus_1 (secp256k1_fe_set_int 1) = true ↔
        fe_p_minus_1 = secp256k1_fe_set_int 1)) :=
  ⟨by decide, by decide, equal_iff_congruent _ _ (by decide) (by decide)⟩

/-! ## Inside the normalization -/

/-- Claim C16: the branch-free comparison detects `≥ p` exactly: for limbs
`t0..t3 < 2^52` and `t4 < 2^49`, the flag
`(t4 >> 48) | ((t4 == 0x0FFFFFFFFFFFF) & ((t1 & t2 & t3) == 0xFFFFFFFFFFFFF) &
(t0 >= 0xFFFFEFFFFFC2F))` equals `1` if and only if the represented integer is at
least `p`, and equals `0` otherwise. -/
theorem ge_flag_exact (s : secp256k1_fe_t) (h0 : s.n0 < 2 ^ 52) (h1 : s.n1 < 2 ^ 52)
    (h2 : s.n2 < 2 ^ 52) (h3 : s.n3 < 2 ^ 52) (h4 : s.n4 < 2 ^ 49) :
    ((s.n4 >>> 48) ||| (b2n (s.n4 == 0x0FFFFFFFFFFFF) &&&
        b2n (s.n1 &&& s.n2 &&& s.n3 == 0xFFFFFFFFFFFFF) &&&
        b2n (decide (s.n0 ≥ 0xFFFFEFFFFFC2F))) = 1 ↔
      s.n0 + s.n1 * 2 ^ 52 + s.n2 * 2 ^ 104 + s.n3 * 2 ^ 156 + s.n4 * 2 ^ 208 ≥ p) ∧
    ((s.n4 >>> 48) ||| (b2n (s.n4 == 0x0FFFFFFFFFFFF) &&&
        b2n (s.n1 &&& s.n2 &&& s.n3 == 0xFFFFFFFFFFFFF) &&&
        b2n (decide (s.n0 ≥ 0xFFFFEFFFFFC2F))) = 0 ↔
      ¬ (s.n0 + s.n1 * 2 ^ 52 + s.n2 * 2 ^ 104 + s.n3 * 2 ^ 156 + s.n4 * 2 ^ 208 ≥ p)) := by
  have e := ge_flag_spec s h0 h1 h2 h3 h4
  unfold ge_flag value at e
  rw [e]
  by_cases hp : p ≤ s.n0 + s.n1 * 2 ^ 52 + s.n2 * 2 ^ 104 + s.n3 * 2 ^ 156 + s.n4 * 2 ^ 208
  · simp [hp]
  · simp [hp]

/-- Claim C16 at the limbs of `p` itself, where the flag is `1`. -/
theorem ge_flag_exact_witness :
    (fe_p.n0 < 2 ^ 52 ∧ fe_p.n1 < 2 ^ 52 ∧ fe_p.n2 < 2 ^ 52 ∧ fe_p.n3 < 2 ^ 52 ∧
      fe_p.n4 < 2 ^ 49) ∧ ge_flag fe_p = 1 ∧ value fe_p = p ∧
    (ge_flag fe_p = 1 ↔ value fe_p ≥ p) :=
  ⟨by decide, by decide, by decide,
    (ge_flag_exact fe_p (by decide) (by decide) (by decide) (by decide) (by decide)).1⟩

theorem normalize_asserts (r : secp256k1_fe_t) :
    (pass1 r).n4 >>> 49 = 0 ∧
    (pass2 (pass1 r) (ge_flag (pass1 r))).n4 >>> 48 = ge_flag (pass1 r) := by
  obtain ⟨out, h, _, _⟩ := normalize_pass1 r
  rw [normalize_unfold] at h
  by_cases h1 : (pass1 r).n4 >>> 49 ≠ 0
  · rw [if_pos h1] at h
    exact absurd h (by simp)
  · rw [if_neg h1] at h
    by_cases h2 : (pass2 (pass1 r) (ge_flag (pass1 r))).n4 >>> 48 ≠ ge_flag (pass1 r)
    · rw [if_pos h2] at h
      exact absurd h (by simp)
    · exact ⟨not_not.mp h1, not_not.mp h2⟩

/-- Claim C17: both assertions of `secp256k1_fe_normalize` hold for every
5-tuple of 64-bit limbs: after the first pass `t4 >> 49 == 0`, after the second
pass `t4 >> 48 == x` with `x` the comparison flag; so the function never takes
the assertion-failure branch and returns the masked second-pass limbs. -/
theorem normalize_asserts_hold (r : secp256k1_fe_t) (_h : limbs64 r) :
    (pass1 r).n4 >>> 49 = 0 ∧
    (pass2 (pass1 r) (ge_flag (pass1 r))).n4 >>> 48 = ge_flag (pass1 r) ∧
    secp256k1_fe_normalize r ≠ none ∧
    secp256k1_fe_normalize r = some { pass2 (pass1 r) (ge_flag (pass1 r)) with
      n4 := (pass2 (pass1 r) (ge_flag (pass1 r))).n4 &&& 0x0FFFFFFFFFFFF } := by
  obtain ⟨a1, a2⟩ := normalize_asserts r
  have e : secp256k1_fe_normalize r = some { pass2 (pass1 r) (ge_flag (pass1 r)) with
      n4 := (pass2 (pass1 r) (ge_flag (pass1 r))).n4 &&& 0x0FFFFFFFFFFFF } := by
    rw [normalize_unfold, if_neg (not_not.mpr a1), if_neg (not_not.mpr a2)]
  refine ⟨a1, a2, ?_, e⟩
  rw [e]
  simp

/-- Claim C17 at the element whose five limbs are all `2^64 - 1`. -/
theorem normalize_asserts_hold_witness :
    limbs64 fe_all_ones ∧
    (pass1 fe_all_ones).n4 >>> 49 = 0 ∧
    (pass2 (pass1 fe_all_ones) (ge_flag (pass1 fe_all_ones))).n4 >>> 48
      = ge_flag (pass1 fe_all_ones) ∧
    secp256k1_fe_normalize fe_all_ones ≠ none ∧
    secp256k1_fe_normalize fe_all_ones
      = some { pass2 (pass1 fe_all_ones) (ge_flag (pass1 fe_all_ones)) with
          n4 := (pass2 (pass1 fe_all_ones) (ge_flag (pass1 fe_all_ones))).n4
            &&& 0x0FFFFFFFFFFFF } :=
  ⟨by decide, normalize_asserts_hold fe_all_ones (by decide)⟩

/-- Claim C18: normalization always lands in normalized form: for every
5-tuple of 64-bit limbs, also beyond every magnitude bound, the output has
`n0..n3 < 2^52`, `n4 < 2^48` and integer value strictly below `p`. -/
theorem normalize_lands_normalized (a : secp256k1_fe_t) (_h : limbs64 a) :
    ∃ r, secp256k1_fe_normalize a = some r ∧
      r.n0 < 2 ^ 52 ∧ r.n1 < 2 ^ 52 ∧ r.n2 < 2 ^ 52 ∧ r.n3 < 2 ^ 52 ∧ r.n4 < 2 ^ 48 ∧
      r.n0 + r.n1 * 2 ^ 52 + r.n2 * 2 ^ 104 + r.n3 * 2 ^ 156 + r.n4 * 2 ^ 208 < p := by
  obtain ⟨out, h1, ⟨⟨r0, r1, r2, r3, r4⟩, hlt⟩, _⟩ := normalize_pass1 a
  exact ⟨out, h1, r0, r1, r2, r3, r4, hlt⟩

/-- Claim C18 at an element that violates the magnitude-32 bound. -/
theorem normalize_lands_normalized_witness :
    limbs64 fe_wild ∧ ¬ mag_le 32 fe_wild ∧
    ∃ r, secp256k1_fe_normalize fe_wild = some r ∧
      r.n0 < 2 ^ 52 ∧ r.n1 < 2 ^ 52 ∧ r.n2 < 2 ^ 52 ∧ r.n3 < 2 ^ 52 ∧ r.n4 < 2 ^ 48 ∧
      r.n0 + r.n1 * 2 ^ 52 + r.n2 * 2 ^ 104 + r.n3 * 2 ^ 156 + r.n4 * 2 ^ 208 < p :=
  ⟨by decide, by decide, normalize_lands_normalized fe_wild (by decide)⟩

/-! ## Magnitude bookkeeping of addition and negation -/

/-- Claim C19: addition propagates magnitude additively without overflow: for
`r` within the magnitude-`M1` bound and `a` within the magnitude-`M2` bound with
`M1 + M2 ≤ 32`, none of the five 64-bit additions wraps, the result is within
the magnitude-`(M1+M2)` bound and its integer value is `value r + value a`. -/
theorem add_magnitude (r a : secp256k1_fe_t) (M1 M2 : Nat) (hr : mag_le M1 r)
    (ha : mag_le M2 a) (hM : M1 + M2 ≤ 32) :
    (r.n0 + a.n0 < 2 ^ 64 ∧ r.n1 + a.n1 < 2 ^ 64 ∧ r.n2 + a.n2 < 2 ^ 64 ∧
      r.n3 + a.n3 < 2 ^ 64 ∧ r.n4 + a.n4 < 2 ^ 64) ∧
    secp256k1_fe_add r a = ⟨r.n0 + a.n0, r.n1 + a.n1, r.n2 + a.n2, r.n3 + a.n3, r.n4 + a.n4⟩ ∧
    mag_le (M1 + M2) (secp256k1_fe_add r a) ∧
    value (secp256k1_fe_add r a) = value r + value a := by
  obtain ⟨r0, r1, r2, r3, r4⟩ := hr
  obtain ⟨a0, a1, a2, a3, a4⟩ := ha
  have e : secp256k1_fe_add r a
      = ⟨r.n0 + a.n0, r.n1 + a.n1, r.n2 + a.n2, r.n3 + a.n3, r.n4 + a.n4⟩ := by
    simp only [secp256k1_fe_add, u64, secp256k1_fe_t.mk.injEq]
    refine ⟨?_, ?_, ?_, ?_, ?_⟩ <;> omega
  refine ⟨⟨?_, ?_, ?_, ?_, ?_⟩, e, ?_, ?_⟩
  · omega
  · omega
  · omega
  · omega
  · omega
  · rw [e]
    simp only [mag_le]
    omega
  · rw [e]
    simp only [value]
    omega

/-- Claim C19 at magnitudes 31 and 1 with every limb at its bound. -/
theorem add_magnitude_witness :
    mag_le 31 fe_mag31_max ∧ mag_le 1 fe_mag1_max ∧ 31 + 1 ≤ 32 ∧
    ((fe_mag31_max.n0 + fe_mag1_max.n0 < 2 ^ 64 ∧ fe_mag31_max.n1 + fe_mag1_max.n1 < 2 ^ 64 ∧
      fe_mag31_max.n2 + fe_mag1_max.n2 < 2 ^ 64 ∧ fe_mag31_max.n3 + fe_mag1_max.n3 < 2 ^ 64 ∧
      fe_mag31_max.n4 + fe_mag1_max.n4 < 2 ^ 64) ∧
    secp256k1_fe_add fe_mag31_max fe_mag1_max =
      ⟨fe_mag31_max.n0 + fe_mag1_max.n0, fe_mag31_max.n1 + fe_mag1_max.n1,
       fe_mag31_max.n2 + fe_mag1_max.n2, fe_mag31_max.n3 + fe_mag1_max.n3,
       fe_mag31_max.n4 + fe_mag1_max.n4⟩ ∧
    mag_le (31 + 1) (secp256k1_fe_add fe_mag31_max fe_mag1_max) ∧
    value (secp256k1_fe_add fe_mag31_max fe_mag1_max)
      = value fe_mag31_max + value fe_mag1_max) :=
  ⟨by decide, by decide, by decide,
    add_magnitude fe_mag31_max fe_mag1_max 31 1 (by decide) (by decide) (by decide)⟩

/-- Claim C20: the bound under which negation is exact: for `0 ≤ m ≤ 31` and
limbs `a_i ≤ (m+1) * p_i`, the constants `(m+1) * p_i` fit in 64 bits,
`secp256k1_fe_negate a m` computes `(m+1) * p_i - a_i` without wraparound, the
value of the result is `(m+1) * p - value a` (so result plus `a` is `0` modulo
`p`), and the result is within the magnitude-`(m+1)` bound. -/
theorem negate_exact (a : secp256k1_fe_t) (m : Int) (h0 : 0 ≤ m) (h1 : m ≤ 31)
    (ha : neg_bound (m + 1).toNat a) :
    (0xFFFFEFFFFFC2F * (m + 1).toNat < 2 ^ 64 ∧ 0xFFFFFFFFFFFFF * (m + 1).toNat < 2 ^ 64 ∧
      0x0FFFFFFFFFFFF * (m + 1).toNat < 2 ^ 64) ∧
    secp256k1_fe_negate a m =
      ⟨(m + 1).toNat * 0xFFFFEFFFFFC2F - a.n0, (m + 1).toNat * 0xFFFFFFFFFFFFF - a.n1,
       (m + 1).toNat * 0xFFFFFFFFFFFFF - a.n2, (m + 1).toNat * 0xFFFFFFFFFFFFF - a.n3,
       (m + 1).toNat * 0x0FFFFFFFFFFFF - a.n4⟩ ∧
    value (secp256k1_fe_negate a m) + value a = (m + 1).toNat * p ∧
    (value (secp256k1_fe_negate a m) + value a) % p = 0 ∧
    mag_le (m + 1).toNat (secp256k1_fe_negate a m) := by
  obtain ⟨a0, a1, a2, a3, a4⟩ := ha
  have ek : u64_of_int (m + 1) = (m + 1).toNat := by
    unfold u64_of_int
    omega
  have hk : (m + 1).toNat ≤ 32 := by omega
  generalize (m + 1).toNat = k at *
  have e : secp256k1_fe_negate a m =
      ⟨k * 0xFFFFEFFFFFC2F - a.n0, k * 0xFFFFFFFFFFFFF - a.n1, k * 0xFFFFFFFFFFFFF - a.n2,
       k * 0xFFFFFFFFFFFFF - a.n3, k * 0x0FFFFFFFFFFFF - a.n4⟩ := by
    simp only [secp256k1_fe_negate, ek, u64, u64_sub, secp256k1_fe_t.mk.injEq]
    refine ⟨?_, ?_, ?_, ?_, ?_⟩ <;> omega
  have hv : value (secp256k1_fe_negate a m) + value a = k * p := by
    rw [e]
    simp only [value, p]
    omega
  refine ⟨⟨by omega, by omega, by omega⟩, e, hv, ?_, ?_⟩
  · rw [hv, Nat.mul_mod_left]
  · rw [e]
    simp only [mag_le]
    omega

/-- Claim C20 at `m = 31` and limbs `a_i = 32 * p_i`. -/
theorem negate_exact_witness :
    (0 : Int) ≤ 31 ∧ (31 : Int) ≤ 31 ∧ neg_bound ((31 : Int) + 1).toNat fe_32p ∧
    secp256k1_fe_negate fe_32p 31 = ⟨0, 0, 0, 0, 0⟩ ∧
    value (secp256k1_fe_negate fe_32p 31) + value fe_32p = ((31 : Int) + 1).toNat * p ∧
    mag_le ((31 : Int) + 1).toNat (secp256k1_fe_negate fe_32p 31) :=
  ⟨by decide, by decide, by decide, by decide,
    (negate_exact fe_32p 31 (by decide) (by decide) (by decide)).2.2.1,
    (negate_exact fe_32p 31 (by decide) (by decide) (by decide)).2.2.2.2⟩

end Secp256k1
